import Mathlib

/-!
# Admission control and credential gate of the authentication / book management API

A shallow embedding of the two gin middlewares of the repository:

* `RateLimitMiddleware` (src/middleware/RateLimiiting.go): one token bucket per client
  address, an idle-bucket sweep, and the handler itself;
* `RequireAdmin` (src/middleware/RequireAdmin.go): cookie, token, expiry, subject, store
  lookup and role checks;

and of the code around them: `init` (src/main.go), `SignUp` and `Login`
(src/controllers/authControllers.go), and the pagination arithmetic of `GetAllUsers` and
`GetAllBooks`.

Conventions.  Instants are natural numbers of nanoseconds (counted from Go's zero time in
the rate limiter, from the Unix epoch in the gate), durations are integers of nanoseconds
(Go's `time.Duration`).  The handler of the rate limiter runs under one mutex, so a request
is one atomic step taken at one instant `now`.  The Go map `clients` is a function
`String → Option RateLimiter`.

The third-party packages that the code calls (golang.org/x/time/rate,
github.com/golang-jwt/jwt/v4, gorm, bcrypt, godotenv) are not part of the repository: the
token bucket, the token parser and the store are modelled from the specification, and what
the specification leaves open is a parameter.  Go's `int` is the 64-bit one.
-/

namespace AuthSystem

/-! ## The gin context -/

/-- The struct `types.User` (src/types/User.go), the row type of the lookup in
`RequireAdmin`.  `CreatedAt` and `UpdatedAt` are instants. -/
structure User where
  ID : Nat
  Email : String
  Password : String
  CreatedAt : Nat
  UpdatedAt : Nat
  Role : String
  deriving DecidableEq, Repr

/-- Values placed in a `gin.H` response body by the two middlewares. -/
inductive H where
  | str (s : String)
  | duration (d : Int)
  deriving DecidableEq, Repr

/-- Go's `time.Second`, in nanoseconds. -/
def Second : Int := 1000000000

/-- Go's `time.Minute`, in nanoseconds. -/
def Minute : Int := 60 * Second

/-- Status code `http.StatusTooManyRequests`. -/
def StatusTooManyRequests : Nat := 429

/-- Status code `http.StatusUnauthorized`. -/
def StatusUnauthorized : Nat := 401

/-- Status code `http.StatusForbidden`. -/
def StatusForbidden : Nat := 403

/-! ## The token bucket -/

/-- Modelled from the spec: the token bucket behind `rate.Limiter`
(golang.org/x/time/rate is imported by the middleware but is not under src/).
`limit` is the refill rate in tokens per second, `burst` the capacity, `last` the instant of
the last refill.  `tokens` counts billionths of a token, so that the refill
`elapsed * refillRate` of an elapsed time in nanoseconds is exact: the bucket holds
`tokens / 10^9` tokens.  Floating-point rounding is outside the model. -/
structure Limiter where
  limit : Int
  burst : Int
  tokens : Int
  last : Nat
  deriving DecidableEq, Repr

/-- Modelled from the spec: `rate.NewLimiter(r, b)`; a bucket is created with
`tokens = burstCapacity`.  The constructor reads no clock: `last` is Go's zero time. -/
def NewLimiter (r : Int) (b : Int) : Limiter :=
  { limit := r, burst := b, tokens := b * Second, last := 0 }

/-- Modelled from the spec: the refill step of `Admit`.  Compute the elapsed time since
`lastRefillAt`, add `elapsed * refillRate` tokens, cap at `burstCapacity`, update
`lastRefillAt`. -/
def Limiter.refill (lim : Limiter) (now : Nat) : Limiter :=
  { lim with
    tokens := min (lim.burst * Second) (lim.tokens + ((now : Int) - (lim.last : Int)) * lim.limit)
    last := now }

/-- Modelled from the spec: `limiter.Allow()` read at instant `now`.  After the refill, if
`tokens ≥ 1` decrement by one and allow, else deny. -/
def Limiter.Allow (lim : Limiter) (now : Nat) : Bool × Limiter :=
  let l := lim.refill now
  if Second ≤ l.tokens then (true, { l with tokens := l.tokens - Second }) else (false, l)

/-- The number of whole tokens is `tokens / 10^9`; the bound `0 ≤ tokens ≤ burstCapacity`
of the data model, on the scaled count. -/
def Limiter.InBounds (lim : Limiter) : Prop :=
  0 ≤ lim.tokens ∧ lim.tokens ≤ lim.burst * Second

instance (lim : Limiter) : Decidable lim.InBounds := by
  unfold Limiter.InBounds; infer_instance

/-! ## RateLimitMiddleware -/

/-- The struct `RateLimiter` of the middleware: a limiter and the instant of the last
request of the client. -/
structure RateLimiter where
  limiter : Limiter
  lastSeen : Nat
  deriving DecidableEq, Repr

/-- The map `clients` of the middleware, keyed by client address. -/
abbrev Clients := String → Option RateLimiter

/-- The map `make(map[string]*RateLimiter)`, empty. -/
def Clients.empty : Clients := fun _ => none

/-- What a handler of the chain did with a request: the fields of the gin context that the
two middlewares write.  `status` and `body` are the response written by
`AbortWithStatusJSON`, `aborted` its abort flag, `keys` the values bound by `c.Set`, and
`nextRan` records that `c.Next()` ran the remaining handlers. -/
structure Outcome where
  status : Option Nat
  body : List (String × H)
  aborted : Bool
  keys : List (String × User)
  nextRan : Bool
  deriving DecidableEq, Repr

/-- The outcome before any handler has written to the context. -/
def Outcome.init : Outcome :=
  { status := none, body := [], aborted := false, keys := [], nextRan := false }

/-- The call `c.Set(key, value)`: the binding replaces an earlier one of the same key. -/
def Outcome.Set (o : Outcome) (key : String) (value : User) : Outcome :=
  { o with keys := (key, value) :: o.keys.filter (fun kv => kv.1 ≠ key) }

/-- The call `c.Get(key)`. -/
def Outcome.Get (o : Outcome) (key : String) : Option User :=
  o.keys.lookup key

/-- The call `c.AbortWithStatusJSON(code, body)`. -/
def Outcome.AbortWithStatusJSON (o : Outcome) (code : Nat) (body : List (String × H)) : Outcome :=
  { o with status := some code, body := body, aborted := true }

/-- The call `c.Next()`. -/
def Outcome.Next (o : Outcome) : Outcome :=
  { o with nextRan := true }

/-- The handler returned by `RateLimitMiddleware(rps, burst, duration)`, lines 39-65: the
state `clients` is threaded through, `now` is the clock read, `ip` is `c.ClientIP()`. -/
def RateLimitMiddleware (rps : Int) (burst : Int) (duration : Int)
    (clients : Clients) (now : Nat) (ip : String) (c : Outcome) : Clients × Outcome :=
  -- Initialize rate limiter for new IPs
  let client : RateLimiter :=
    match clients ip with
    | some cl => cl
    | none => { limiter := NewLimiter rps burst, lastSeen := 0 }
  -- Update last seen time
  let client := { client with lastSeen := now }
  -- Check if request is allowed
  let r := client.limiter.Allow now
  let clients := Function.update clients ip (some { client with limiter := r.2 })
  if !r.1 then
    (clients, c.AbortWithStatusJSON StatusTooManyRequests
      [("error", H.str "Too many requests"), ("retry_after", H.duration duration)])
  else
    (clients, c.Next)

/-- The retention window of the cleanup loop, `2*time.Minute`. -/
def retention : Int := 2 * Minute

/-- The sleep between two passes of the cleanup loop, `time.Minute`. -/
def sweepInterval : Int := Minute

/-- One pass of the cleanup goroutine, lines 29-35, at instant `now`: every entry with
`time.Since(client.lastSeen) > 2*time.Minute` is deleted. -/
def cleanup (clients : Clients) (now : Nat) : Clients :=
  fun ip =>
    match clients ip with
    | some client => if (now : Int) - (client.lastSeen : Int) > retention then none else some client
    | none => none

/-- An event of the limiter: a request of client `ip` handled at `now`, or a pass of the
cleanup loop at `now`. -/
inductive Event where
  | request (ip : String) (now : Nat)
  | sweep (now : Nat)
  deriving DecidableEq, Repr

/-- The instant of an event. -/
def Event.time : Event → Nat
  | .request _ now => now
  | .sweep now => now

/-- One event applied to the client map; a request reports its outcome. -/
def step (rps burst duration : Int) (clients : Clients) : Event → Clients × Option Outcome
  | .request ip now =>
    let r := RateLimitMiddleware rps burst duration clients now ip Outcome.init
    (r.1, some r.2)
  | .sweep now => (cleanup clients now, none)

/-- A sequence of events applied in order, with the outcomes of its requests. -/
def run (rps burst duration : Int) (clients : Clients) : List Event → Clients × List Outcome
  | [] => (clients, [])
  | e :: es =>
    let r := step rps burst duration clients e
    let rest := run rps burst duration r.1 es
    (rest.1, r.2.toList ++ rest.2)

/-- The outcome of an admitted request: the next handler ran, nothing was written. -/
def admitted : Outcome := Outcome.init.Next

/-- The outcome of a denied request: aborted with 429 and the retry hint. -/
def denied (duration : Int) : Outcome :=
  Outcome.init.AbortWithStatusJSON StatusTooManyRequests
    [("error", H.str "Too many requests"), ("retry_after", H.duration duration)]

/-! ## Session tokens -/

/-- A decoded JSON value of a claim (Go's `interface{}` in `jwt.MapClaims`).  JSON numbers,
which Go decodes to `float64`, are integers here: a NumericDate is in whole seconds, as
`Login` issues it with `Unix()`. -/
inductive Value where
  | null
  | bool (b : Bool)
  | num (n : Int)
  | str (s : String)
  | other
  deriving DecidableEq, Repr

/-- The type `jwt.MapClaims`: claim names with their values. -/
abbrev MapClaims := List (String × Value)

/-- The signing methods registered by github.com/golang-jwt/jwt/v4. -/
inductive SigningMethod where
  | HS256 | HS384 | HS512
  | RS256 | RS384 | RS512
  | PS256 | PS384 | PS512
  | ES256 | ES384 | ES512
  | EdDSA
  | none
  deriving DecidableEq, Repr

/-- The type assertion `token.Method.(*jwt.SigningMethodHMAC)`: it succeeds for the three
HMAC methods, which are all values of that one Go type. -/
def SigningMethod.isHMAC : SigningMethod → Bool
  | .HS256 | .HS384 | .HS512 => true
  | _ => false

/-- The registry `signingMethods` of the jwt library: its methods by their `alg` name. -/
def signingMethods : List (String × SigningMethod) :=
  [("HS256", .HS256), ("HS384", .HS384), ("HS512", .HS512),
   ("RS256", .RS256), ("RS384", .RS384), ("RS512", .RS512),
   ("PS256", .PS256), ("PS384", .PS384), ("PS512", .PS512),
   ("ES256", .ES256), ("ES384", .ES384), ("ES512", .ES512),
   ("EdDSA", .EdDSA), ("none", .none)]

/-- The library call `jwt.GetSigningMethod(alg)`: the method registered under a header
`alg`, if any. -/
def GetSigningMethod (alg : String) : Option SigningMethod :=
  signingMethods.lookup alg

/-- The third segment of a token, symbolically: either bytes that no key produced, or the
value that `method` computes with `key` over the signing input (header `alg` and claims). -/
inductive Signature where
  | garbage
  | signed (method : SigningMethod) (key : String) (alg : String) (claims : MapClaims)
  deriving DecidableEq, Repr

/-- The value of the cookie: a string that does not split and decode into a header with a
string `alg`, claims and a signature, or one that does. -/
inductive TokenString where
  | malformed (raw : String)
  | jws (alg : String) (claims : MapClaims) (sig : Signature)
  deriving DecidableEq, Repr

/-- The struct `jwt.Token` handed to the key function and returned by `jwt.Parse`. -/
structure Token where
  Method : SigningMethod
  alg : String
  Claims : MapClaims
  Signature : Signature
  Valid : Bool
  deriving DecidableEq, Repr

/-- Why `jwt.Parse` returned an error. -/
inductive ParseError where
  | malformed
  | unavailableMethod
  | unverifiable (msg : String)
  | claimsInvalid
  | signatureInvalid
  deriving DecidableEq, Repr

/-- Modelled from the spec: the cryptographic verification of the step VerifySignature,
`token.Method.Verify(signingString, signature, key)` of the library, for a key that is a
byte string.  An HMAC method accepts exactly the value it computes with that key over the
signing input; every other method refuses a byte-string key. -/
def SigningMethod.Verify (m : SigningMethod) (key : String) (alg : String) (claims : MapClaims)
    (sig : Signature) : Bool :=
  m.isHMAC && sig == Signature.signed m key alg claims

/-- Modelled from the spec: the step VerifySignature, which the source delegates to
`jwt.Parse(tokenString, keyFunc)` of github.com/golang-jwt/jwt/v4 (not under src/).  Decode
the segments, look the method up by the header `alg`, ask `keyFunc` for the key, validate
the registered claims, verify the signature; malformed structure, a refused algorithm and a
signature failure are errors, and `Valid` is set on success only.  The validation of the
registered time claims (`token.Claims.Valid()`) is the library's own and differs between its
releases: it is the parameter `claimsValid`, read at the instant `now`. -/
def Parse (claimsValid : MapClaims → Nat → Bool) (now : Nat) (tokenString : TokenString)
    (keyFunc : Token → Except String String) : Except ParseError Token :=
  match tokenString with
  | .malformed _ => .error .malformed
  | .jws alg claims sig =>
    match GetSigningMethod alg with
    | none => .error .unavailableMethod
    | some m =>
      let token : Token :=
        { Method := m, alg := alg, Claims := claims, Signature := sig, Valid := false }
      match keyFunc token with
      | .error msg => .error (.unverifiable msg)
      | .ok key =>
        if !claimsValid claims now then .error .claimsInvalid
        else if !m.Verify key alg claims sig then .error .signatureInvalid
        else .ok { token with Valid := true }

/-! ## Machine integers and decimal strings -/

/-- The least value of Go's `int` on a 64-bit target. -/
def minInt : Int := -9223372036854775808

/-- The greatest value of Go's `int` on a 64-bit target. -/
def maxInt : Int := 9223372036854775807

/-- The value that 64-bit two's complement arithmetic returns for the exact result `x`. -/
def wrapInt (x : Int) : Int := (x + 9223372036854775808) % 18446744073709551616 - 9223372036854775808

/-- The value of a string of decimal digits, none when a character is not a digit. -/
def digitsValue : List Char → Option Nat
  | cs => cs.foldl (fun acc ch =>
      match acc with
      | none => none
      | some n => if ch.isDigit then some (n * 10 + (ch.toNat - 48)) else none) (some 0)

/-- The range check of `strconv.Atoi`: a value outside `int` is an error. -/
def inRange (v : Int) : Option Int :=
  if minInt ≤ v ∧ v ≤ maxInt then some v else none

/-- The standard library call `strconv.Atoi(s)`: an optional sign and one or more decimal
digits, within the range of `int`; none stands for a returned error (syntax or range). -/
def Atoi (s : String) : Option Int :=
  let signed : Bool × List Char :=
    match s.data with
    | '-' :: ds => (true, ds)
    | '+' :: ds => (false, ds)
    | ds => (false, ds)
  if signed.2.isEmpty then none
  else
    match digitsValue signed.2 with
    | none => none
    | some n => inRange (if signed.1 then -(n : Int) else (n : Int))

/-! ## RequireAdmin -/

/-- The key function passed to `jwt.Parse` in `RequireAdmin`, lines 26-31: any method of the
HMAC type is accepted and the key is `os.Getenv("JWT_SECRET")`. -/
def keyFunc (env : String → String) (token : Token) : Except String String :=
  if !token.Method.isHMAC then
    .error ("unexpected signing method: " ++ token.alg)
  else
    .ok (env "JWT_SECRET")

/-- The primary key that a subject value denotes for the store.  The query compares the
column `id` with the value as the driver sends it: a JSON number is that integer, and a
string is converted by the engine when it reads as a decimal integer ("1" denotes 1);
values of other types denote no key. -/
def subjectID : Value → Option Int
  | .num n => some n
  | .str s => Atoi s
  | _ => none

/-- Modelled from the spec: the store lookup `Lookup(subject) -> Principal | NotFound`
behind `initializers.DB.First(&user, "id = ?", userID)` (gorm and the database are not
under src/): the row whose primary key is the one the value denotes, or none (an error in
Go).  The gate hands the claim over as it is, of whatever type. -/
def First (db : List User) (userID : Value) : Option User :=
  db.find? (fun u => subjectID userID == some (u.ID : Int))

/-- The body `gin.H{"error": msg}`. -/
def errorBody (msg : String) : List (String × H) := [("error", H.str msg)]

/-- The middleware `RequireAdmin`, lines 15-75.  `env` is `os.Getenv`, `db` the table of
users behind `initializers.DB`, `now` the clock read in nanoseconds since the Unix epoch,
`cookies` the cookies of the request by name. -/
def RequireAdmin (claimsValid : MapClaims → Nat → Bool) (env : String → String)
    (db : List User) (now : Nat) (cookies : String → Option TokenString) (c : Outcome) :
    Outcome :=
  -- Get the cookie from the request
  match cookies "Authorization" with
  | none => c.AbortWithStatusJSON StatusUnauthorized (errorBody "unauthorized - no token provided")
  | some tokenString =>
    -- Parse and validate the token
    match Parse claimsValid now tokenString (keyFunc env) with
    | .error _ => c.AbortWithStatusJSON StatusUnauthorized (errorBody "unauthorized - invalid token")
    | .ok token =>
      -- the assertion token.Claims.(jwt.MapClaims) always succeeds on what Parse returns
      if !token.Valid then
        c.AbortWithStatusJSON StatusUnauthorized (errorBody "unauthorized - invalid claims")
      else
        -- Check token expiration
        match token.Claims.lookup "exp" with
        | some (.num exp) =>
          if exp * Second < (now : Int) then
            c.AbortWithStatusJSON StatusUnauthorized (errorBody "unauthorized - token expired")
          else
            -- Get user ID from claims
            match token.Claims.lookup "sub" with
            | none =>
              c.AbortWithStatusJSON StatusUnauthorized (errorBody "unauthorized - invalid user ID")
            | some userID =>
              if userID = Value.str "" then
                c.AbortWithStatusJSON StatusUnauthorized
                  (errorBody "unauthorized - invalid user ID")
              else
                -- Find the user in database
                match First db userID with
                | none =>
                  c.AbortWithStatusJSON StatusUnauthorized
                    (errorBody "unauthorized - user not found")
                | some user =>
                  -- Check if the user is an admin
                  if user.Role ≠ "admin" then
                    c.AbortWithStatusJSON StatusForbidden
                      (errorBody "forbidden - admin access required")
                  else
                    -- Set the user in the context, continue to the next handler
                    (c.Set "user" user).Next
        | _ => c.AbortWithStatusJSON StatusUnauthorized (errorBody "unauthorized - token expired")

/-- A token is signed with `key`: its header names an HMAC method and its signature is the
value of that method under `key` over its own header and claims. -/
def SignedWith (key : String) (alg : String) (claims : MapClaims) (sig : Signature) : Prop :=
  ∃ m, GetSigningMethod alg = some m ∧ m.isHMAC = true ∧ sig = Signature.signed m key alg claims

/-- The cookies of a request that carries `tokenString` in the cookie `Authorization` and
nothing else. -/
def authCookie (tokenString : TokenString) : String → Option TokenString :=
  fun name => if name = "Authorization" then some tokenString else none

/-- The cookies of a request without cookies. -/
def noCookies : String → Option TokenString := fun _ => none

/-- An instance of the parameter `claimsValid`, after `MapClaims.Valid` of jwt v4: each of
`exp`, `iat` and `nbf` is checked when present, in whole seconds and without leeway. -/
def timeClaimsValid (claims : MapClaims) (now : Nat) : Bool :=
  (match claims.lookup "exp" with
    | none => true
    | some (.num e) => decide (((now : Int) / Second) < e)
    | some _ => false) &&
  (match claims.lookup "iat" with
    | none => true
    | some (.num i) => decide (i ≤ (now : Int) / Second)
    | some _ => false) &&
  (match claims.lookup "nbf" with
    | none => true
    | some (.num n) => decide (n ≤ (now : Int) / Second)
    | some _ => false)

/-- The six messages of the responses with status 401. -/
def unauthorizedMessages : List String :=
  ["unauthorized - no token provided", "unauthorized - invalid token",
   "unauthorized - invalid claims", "unauthorized - token expired",
   "unauthorized - invalid user ID", "unauthorized - user not found"]

/-- The check of `RequireAdmin` that the message of a 401 names: `msg` is the message of
the first check, in the order of the source, that the request fails.  No cookie; an error
of `jwt.Parse`; `exp` missing, not a number or in the past; `sub` missing or the empty
string; no row for `sub` in the store. -/
def FailedCheck (claimsValid : MapClaims → Nat → Bool) (env : String → String)
    (db : List User) (now : Nat) (cookies : String → Option TokenString) (msg : String) :
    Prop :=
  (msg = "unauthorized - no token provided" ∧ cookies "Authorization" = none) ∨
  (msg = "unauthorized - invalid token" ∧
    ∃ ts err, cookies "Authorization" = some ts ∧
      Parse claimsValid now ts (keyFunc env) = .error err) ∨
  (msg = "unauthorized - token expired" ∧
    ∃ alg claims sig, cookies "Authorization" = some (.jws alg claims sig) ∧
      SignedWith (env "JWT_SECRET") alg claims sig ∧ claimsValid claims now = true ∧
      ((∀ e, claims.lookup "exp" ≠ some (.num e)) ∨
        ∃ e, claims.lookup "exp" = some (.num e) ∧ e * Second < (now : Int))) ∨
  (msg = "unauthorized - invalid user ID" ∧
    ∃ alg claims sig e, cookies "Authorization" = some (.jws alg claims sig) ∧
      SignedWith (env "JWT_SECRET") alg claims sig ∧ claimsValid claims now = true ∧
      claims.lookup "exp" = some (.num e) ∧ ¬ e * Second < (now : Int) ∧
      (claims.lookup "sub" = none ∨ claims.lookup "sub" = some (Value.str ""))) ∨
  (msg = "unauthorized - user not found" ∧
    ∃ alg claims sig e v, cookies "Authorization" = some (.jws alg claims sig) ∧
      SignedWith (env "JWT_SECRET") alg claims sig ∧ claimsValid claims now = true ∧
      claims.lookup "exp" = some (.num e) ∧ ¬ e * Second < (now : Int) ∧
      claims.lookup "sub" = some v ∧ v ≠ Value.str "" ∧ First db v = none)

/-- A token as a holder of `key` issues it: header `alg`, the claims, and the value of the
method over both. -/
def signedToken (m : SigningMethod) (alg : String) (key : String) (claims : MapClaims) :
    TokenString :=
  .jws alg claims (Signature.signed m key alg claims)

/-- An environment in which `JWT_SECRET` is set. -/
def sampleEnv : String → String :=
  fun name => if name = "JWT_SECRET" then "0f4a-secret" else ""

/-- A stored administrator. -/
def sampleAdmin : User :=
  { ID := 1, Email := "root@example.org", Password := "$2a$10$hashA", CreatedAt := 0,
    UpdatedAt := 0, Role := "admin" }

/-- A stored user without privilege. -/
def sampleReader : User :=
  { ID := 2, Email := "reader@example.org", Password := "$2a$10$hashB", CreatedAt := 0,
    UpdatedAt := 0, Role := "user" }

/-- A table of users with one administrator and one plain user. -/
def sampleDB : List User := [sampleAdmin, sampleReader]

/-- A clock read: 1700000000 seconds after the Unix epoch, in nanoseconds. -/
def sampleNow : Nat := 1700000000000000000

/-- Claims with subject `id` and expiry `exp` (seconds), the two that `Login` sets. -/
def sampleClaims (id : Int) (exp : Int) : MapClaims :=
  [("sub", Value.num id), ("exp", Value.num exp)]

/-- The entry of `ip` that the handler works on: the stored one, or a new one. -/
def entry (rps burst : Int) (clients : Clients) (ip : String) : RateLimiter :=
  match clients ip with
  | some cl => cl
  | none => { limiter := NewLimiter rps burst, lastSeen := 0 }

/-- The token count (scaled) that the bucket of `ip` holds after the refill at `now`. -/
def refilled (rps burst : Int) (clients : Clients) (ip : String) (now : Nat) : Int :=
  ((entry rps burst clients ip).limiter.refill now).tokens

/-- The invariant of the client map at instant `T`: every bucket is within bounds, carries
the configured rate and capacity, and was last refilled no later than `T`. -/
def Inv (rps burst : Int) (T : Nat) (clients : Clients) : Prop :=
  ∀ ip cl, clients ip = some cl →
    cl.limiter.InBounds ∧ cl.limiter.burst = burst ∧ cl.limiter.limit = rps ∧
      cl.limiter.last ≤ T

/-- The instant of the most recent request of `ip` in a sequence of events, admitted or
denied; `prev` is the one before the sequence, if any. -/
def lastRequest (ip : String) : Option Nat → List Event → Option Nat
  | prev, [] => prev
  | prev, .request ip2 now :: es => lastRequest ip (if ip2 = ip then some now else prev) es
  | prev, .sweep _ :: es => lastRequest ip prev es

/-! ## Startup (src/main.go, src/initializers) -/

/-- What `init` finds on the machine: whether `godotenv.Load()` can read the file `.env`,
the environment after that load (`os.Getenv`, the empty string for an unset variable),
whether the log directory and file can be opened, whether `gorm.Open` connects, and whether
`AutoMigrate` succeeds. -/
structure Host where
  dotenvLoads : Bool
  Getenv : String → String
  loggerOpens : Bool
  dbOpens : Bool
  migrates : Bool

/-- The function `init` of src/main.go, lines 21-47, with `LoadEnvVars`, `InitLogger`,
`ConnectToDB` and `SyncDatabase`: an error stands for `log.Fatal`, which ends the process
before `main` starts the server; `ok` means that `main` runs and serves requests. -/
def init (h : Host) : Except String Unit :=
  -- Initialize configuration
  if !h.dotenvLoads then .error "Failed to load environment variables"
  -- Initialize logger
  else if !h.loggerOpens then .error "Failed to initialize logger"
  -- Initialize database connection
  else if h.Getenv "DB_DSN" = "" then .error "DB_DSN environment variable not set"
  else if !h.dbOpens then .error "Failed to connect to database"
  -- Sync database schema
  else if !h.migrates then .error "Failed to sync database"
  else .ok ()

/-- The host `h` with the variable `JWT_SECRET` set to `value` (the empty string: unset or
empty). -/
def Host.withSecret (h : Host) (value : String) : Host :=
  { h with Getenv := fun name => if name = "JWT_SECRET" then value else h.Getenv name }

/-! ## SignUp and Login (src/controllers/authControllers.go) -/

namespace models

/-- The struct `models.User` (src/models/UserModel.go): the fields of `gorm.Model` and the
three columns of the account. -/
structure User where
  ID : Nat
  CreatedAt : Nat
  UpdatedAt : Nat
  DeletedAt : Option Nat
  Email : String
  Password : String
  Role : String
  deriving DecidableEq, Repr

end models

/-- Go's `time.Hour`, in nanoseconds. -/
def Hour : Int := 60 * Minute

/-- What a controller answers: the status and the text field of `c.JSON`, the user and the
token it returns, and the cookie it sets (name, value, max age in seconds). -/
structure Reply where
  status : Nat
  field : String
  message : String
  user : Option models.User
  token : Option TokenString
  cookie : Option (String × TokenString × Int)
  deriving DecidableEq, Repr

/-- The answer `c.JSON(status, gin.H{field: message})`. -/
def Reply.text (status : Nat) (field message : String) : Reply :=
  { status := status, field := field, message := message, user := none, token := none,
    cookie := none }

/-- The name `s` with its ASCII letters in lower case. -/
def lowerCase (s : String) : String :=
  String.mk (s.data.map Char.toLower)

/-- One string field of the struct filled by `c.Bind(&body)` from the fields of a JSON
request body; `name` is the name of the struct field in lower case.  The keys of the body
are matched with it ignoring case (`Email` and `email` both fill `Email`); the fields are
read in order, a string sets the value, a null leaves it, and a value of another type is a
binding error.  An absent field leaves the zero value. -/
def bindField (fields : List (String × Value)) (name : String) : Option String :=
  fields.foldl (fun acc kv =>
    if lowerCase kv.1 = name then
      match acc, kv.2 with
      | none, _ => none
      | some v, .null => some v
      | some _, .str v => some v
      | some _, _ => none
    else acc) (some "")

/-- The anonymous struct `body` of `SignUp`. -/
structure SignUpBody where
  Email : String
  Password : String
  deriving DecidableEq, Repr

/-- The anonymous struct `body` of `Login`. -/
structure LoginBody where
  Email : String
  Password : String
  Role : String
  deriving DecidableEq, Repr

/-- The call `c.Bind(&body)` in `SignUp`; `body` is none when the request body cannot be
read or decoded.  Fields other than the two of the struct are ignored. -/
def bindSignUp (body : Option (List (String × Value))) : Option SignUpBody :=
  match body with
  | none => none
  | some fields =>
    match bindField fields "email", bindField fields "password" with
    | some e, some p => some { Email := e, Password := p }
    | _, _ => none

/-- The call `c.Bind(&body)` in `Login`. -/
def bindLogin (body : Option (List (String × Value))) : Option LoginBody :=
  match body with
  | none => none
  | some fields =>
    match bindField fields "email", bindField fields "password", bindField fields "role" with
    | some e, some p, some r => some { Email := e, Password := p, Role := r }
    | _, _, _ => none

/-- Modelled from the spec: the store lookup behind
`initializers.DB.Where("email = ?", email).First(&existingUser)` on the table of
`models.User` (gorm and the database are not under src/): the first row with that email
that is not soft-deleted, or none (an error in Go).  Rows are listed in the order of their
primary keys. -/
def firstByEmail (users : List models.User) (email : String) : Option models.User :=
  users.find? (fun u => u.DeletedAt.isNone && u.Email == email)

/-- The primary key that the table gives to the next row. -/
def nextID (users : List models.User) : Nat :=
  (users.map (fun u => u.ID)).foldl max 0 + 1

/-- Modelled from the spec: the store write behind `initializers.DB.Create(&user)` (gorm
and the database are not under src/).  The column `email` is unique: a row with the same
email, soft-deleted or not, makes the insert fail; otherwise the row is appended with its
primary key and timestamps.  Failures of the connection are not modelled. -/
def Create (users : List models.User) (now : Nat) (user : models.User) :
    Except String (List models.User × models.User) :=
  if users.any (fun u => u.Email == user.Email) then
    .error "duplicate key value violates unique constraint"
  else
    let stored : models.User :=
      { user with ID := nextID users, CreatedAt := now, UpdatedAt := now }
    .ok (users ++ [stored], stored)

/-- The controller `SignUp`, lines 18-72.  `GenerateFromPassword` is the bcrypt call (an
opaque one-way function of the specification; its second argument is the cost), `users` the
table of accounts, `now` the clock of the store, `body` the request body. -/
def SignUp (GenerateFromPassword : String → Nat → Except String String)
    (users : List models.User) (now : Nat) (body : Option (List (String × Value))) :
    List models.User × Reply :=
  -- read the body from the request -> if it fails then return a 400 error
  match bindSignUp body with
  | none => (users, Reply.text 400 "Message" "Failed to read the request")
  | some body =>
    -- Check if the user already exists
    match firstByEmail users body.Email with
    | some _ => (users, Reply.text 400 "Message" "User already exists")
    | none =>
      -- Hash the password
      match GenerateFromPassword body.Password 10 with
      | .error _ => (users, Reply.text 500 "error" "Failed to hash the password")
      | .ok hashedPassword =>
        -- create the user
        let user : models.User :=
          { ID := 0, CreatedAt := 0, UpdatedAt := 0, DeletedAt := none,
            Email := body.Email, Password := hashedPassword, Role := "user" }
        -- Save the user to the database
        match Create users now user with
        | .error _ => (users, Reply.text 500 "error" "Failed to create the user")
        | .ok r =>
          (r.1, { Reply.text 200 "message" "User created successfully" with user := some r.2 })

/-- The name `Alg()` of a signing method. -/
def SigningMethod.Alg : SigningMethod → String
  | .HS256 => "HS256" | .HS384 => "HS384" | .HS512 => "HS512"
  | .RS256 => "RS256" | .RS384 => "RS384" | .RS512 => "RS512"
  | .PS256 => "PS256" | .PS384 => "PS384" | .PS512 => "PS512"
  | .ES256 => "ES256" | .ES384 => "ES384" | .ES512 => "ES512"
  | .EdDSA => "EdDSA" | .none => "none"

/-- The library calls `jwt.NewWithClaims(method, claims)` and `token.SignedString(key)` for
a key that is a byte string: an HMAC method signs with any byte string, the empty one
included; every other method refuses such a key. -/
def SignedString (m : SigningMethod) (claims : MapClaims) (key : String) :
    Except String TokenString :=
  if m.isHMAC then .ok (signedToken m m.Alg key claims) else .error "key is of invalid type"

/-- The controller `Login`, lines 74-133.  `Getenv` is `os.Getenv`,
`CompareHashAndPassword` the bcrypt check of a stored hash against a password (true when it
returns no error), `users` the table of accounts, `now` the clock read in nanoseconds since
the Unix epoch, `body` the request body. -/
def Login (Getenv : String → String) (CompareHashAndPassword : String → String → Bool)
    (users : List models.User) (now : Nat) (body : Option (List (String × Value))) : Reply :=
  -- read the body from the request -> if it fails then return a 400 error
  match bindLogin body with
  | none => Reply.text 400 "Message" "Failed to read the request"
  | some body =>
    -- look up the user based on the email
    match firstByEmail users body.Email with
    | none => Reply.text 400 "Message" "User does not exist"
    | some existingUser =>
      -- compare the password with the hashed password
      if !CompareHashAndPassword existingUser.Password body.Password then
        Reply.text 400 "Message" "Invalid password"
      else
        -- Generate a JWT token
        let claims : MapClaims :=
          [("sub", Value.num (existingUser.ID : Int)),
           ("exp", Value.num (((now : Int) + Hour * 24) / Second))]
        match SignedString .HS256 claims (Getenv "JWT_SECRET") with
        | .error _ => Reply.text 500 "error" "Failed to generate the token"
        | .ok tokenString =>
          -- set cookies, return the user and the token
          { status := 200, field := "message", message := "User logged in successfully",
            user := some existingUser, token := some tokenString,
            cookie := some ("Authorization", tokenString, 3600 * 24) }

/-- A bcrypt stand-in for examples: the hash is the password behind a marker. -/
def sampleHash (password : String) (_cost : Nat) : Except String String :=
  .ok ("$2a$10$" ++ password)

/-- The check that goes with `sampleHash`. -/
def sampleCompare (hash password : String) : Bool :=
  hash == "$2a$10$" ++ password

/-- A table of accounts with one administrator and one plain user. -/
def sampleUsers : List models.User :=
  [{ ID := 1, CreatedAt := 0, UpdatedAt := 0, DeletedAt := none, Email := "root@example.org",
     Password := "$2a$10$hunter2", Role := "admin" },
   { ID := 2, CreatedAt := 0, UpdatedAt := 0, DeletedAt := none,
     Email := "reader@example.org", Password := "$2a$10$letmein", Role := "user" }]

/-- A host on which everything `init` needs is in place and `JWT_SECRET` is not set. -/
def sampleHost : Host :=
  { dotenvLoads := true,
    Getenv := fun name => if name = "DB_DSN" then "host=db user=app dbname=books" else "",
    loggerOpens := true, dbOpens := true, migrates := true }

/-! ## The mutex of the rate limiter -/

/-- The calls of a goroutine on the mutex `mu` and on the handler chain, in the order in
which they happen. -/
inductive Op where
  | Lock
  | Unlock
  | Abort (code : Nat)
  | Next
  deriving DecidableEq, Repr

/-- The calls of the handler returned by `RateLimitMiddleware`, lines 42-65, for one request:
`mu.Lock()` first; `defer mu.Unlock()` runs when the handler returns, that is after
`c.AbortWithStatusJSON(...)` and `return`, or after `c.Next()` has run the remaining
handlers and returned. -/
def handlerOps (rps burst duration : Int) (clients : Clients) (now : Nat) (ip : String) :
    List Op :=
  let r := RateLimitMiddleware rps burst duration clients now ip Outcome.init
  [Op.Lock] ++ (if r.2.nextRan then [Op.Next] else [Op.Abort StatusTooManyRequests]) ++
    [Op.Unlock]

/-- The calls of one pass of the cleanup goroutine, lines 29-35: the mutex is taken, the map
is swept, the mutex is released. -/
def cleanupOps : List Op := [Op.Lock, Op.Unlock]

/-- Whether some `c.Next()` of the sequence runs while the mutex is held; `held` tells
whether it is held before the sequence. -/
def heldDuringNext : Bool → List Op → Bool
  | _, [] => false
  | _, .Lock :: ops => heldDuringNext true ops
  | _, .Unlock :: ops => heldDuringNext false ops
  | held, .Next :: ops => held || heldDuringNext held ops
  | held, .Abort _ :: ops => heldDuringNext held ops

/-! ## Pagination of GetAllUsers and GetAllBooks -/

/-- The call `c.DefaultQuery(key, defaultValue)`; `value` is the query parameter when the
request has it. -/
def DefaultQuery (value : Option String) (defaultValue : String) : String :=
  match value with
  | some v => v
  | none => defaultValue

/-- The three pagination numbers of a request. -/
structure Pagination where
  page : Int
  limit : Int
  offset : Int
  deriving DecidableEq, Repr

/-- Lines 22-32 of `GetAllUsers` and of `GetAllBooks` (the same code): `page` and `limit`
from the query strings with their defaults, and `offset := (page - 1) * limit` in `int`
arithmetic. -/
def parsePagination (pageQuery limitQuery : Option String) : Pagination :=
  let page : Int :=
    match Atoi (DefaultQuery pageQuery "1") with
    | some page => if page < 1 then 1 else page
    | none => 1
  let limit : Int :=
    match Atoi (DefaultQuery limitQuery "10") with
    | some limit => if limit < 1 ∨ limit > 50 then 10 else limit
    | none => 10
  { page := page, limit := limit, offset := wrapInt (wrapInt (page - 1) * limit) }

/-! ## Theorems: the rate limiter -/

theorem Second_pos : 0 < Second := by decide

theorem RateLimitMiddleware_self (rps burst duration : Int) (clients : Clients) (now : Nat)
    (ip : String) (c : Outcome) :
    (RateLimitMiddleware rps burst duration clients now ip c).1 ip =
      some { limiter := ((entry rps burst clients ip).limiter.Allow now).2, lastSeen := now } := by
  unfold RateLimitMiddleware entry
  cases h : clients ip <;> simp only [] <;> split <;> simp [Function.update_same]

theorem RateLimitMiddleware_other (rps burst duration : Int) (clients : Clients) (now : Nat)
    (ip ip2 : String) (c : Outcome) (hne : ip2 ≠ ip) :
    (RateLimitMiddleware rps burst duration clients now ip c).1 ip2 = clients ip2 := by
  unfold RateLimitMiddleware
  cases h : clients ip <;> simp only [] <;> split <;> simp [Function.update_noteq hne]

theorem RateLimitMiddleware_outcome (rps burst duration : Int) (clients : Clients) (now : Nat)
    (ip : String) :
    (RateLimitMiddleware rps burst duration clients now ip Outcome.init).2 =
      if Second ≤ refilled rps burst clients ip now then admitted else denied duration := by
  unfold RateLimitMiddleware refilled entry Limiter.Allow admitted denied
  cases h : clients ip <;> simp only [] <;> split <;> simp_all

/-- The refill of the bucket just served at the same instant adds nothing: its count is the
count left by the request. -/
theorem refilled_after (rps burst duration : Int) (clients : Clients) (now : Nat) (ip : String)
    (c : Outcome) :
    refilled rps burst (RateLimitMiddleware rps burst duration clients now ip c).1 ip now =
      if Second ≤ refilled rps burst clients ip now then refilled rps burst clients ip now - Second
      else refilled rps burst clients ip now := by
  have hS := Second_pos
  have h := RateLimitMiddleware_self rps burst duration clients now ip c
  have hcap : refilled rps burst clients ip now ≤ (entry rps burst clients ip).limiter.burst * Second := by
    unfold refilled Limiter.refill
    exact min_le_left _ _
  generalize hT : refilled rps burst clients ip now = T at hcap
  unfold refilled at hT
  unfold refilled
  conv_lhs => unfold entry
  rw [h]
  simp only [Limiter.Allow, hT]
  split
  · simp only [Limiter.refill, sub_self, zero_mul, add_zero]
    rw [min_eq_right]; omega
  · simp only [Limiter.refill, sub_self, zero_mul, add_zero]
    simp only [Limiter.refill] at hT
    rw [hT, min_eq_right]; omega

/-- Requests of one client at one instant: as many are admitted as the refilled bucket holds
whole tokens, every later one is denied. -/
theorem run_replicate_outcomes (rps burst duration : Int) (now : Nat) (ip : String) :
    ∀ (n : Nat) (clients : Clients),
      (run rps burst duration clients (List.replicate n (Event.request ip now))).2 =
        List.replicate (min n (refilled rps burst clients ip now / Second).toNat) admitted ++
          List.replicate (n - (refilled rps burst clients ip now / Second).toNat)
            (denied duration) := by
  have hS := Second_pos
  intro n
  induction n with
  | zero => intro clients; simp [run]
  | succ n ih =>
    intro clients
    simp only [List.replicate_succ, run, step]
    rw [ih, refilled_after, RateLimitMiddleware_outcome]
    generalize refilled rps burst clients ip now = T
    by_cases hT : Second ≤ T
    · simp only [hT, if_true, Option.toList]
      have h1 : 1 ≤ T / Second := Int.le_ediv_of_mul_le hS (by omega)
      have h2 : (T - Second) / Second = T / Second - 1 := by
        have : T - Second = T + Second * (-1) := by ring
        rw [this, Int.add_mul_ediv_left _ _ (ne_of_gt hS)]; ring
      rw [h2]
      obtain ⟨k, hk⟩ : ∃ k : Nat, T / Second = (k : Int) + 1 := ⟨(T / Second - 1).toNat, by omega⟩
      rw [hk]
      have e1 : ((k : Int) + 1 - 1).toNat = k := by omega
      have e2 : ((k : Int) + 1).toNat = k + 1 := by omega
      rw [e1, e2, Nat.succ_sub_succ, Nat.succ_min_succ, List.replicate_succ]
      rfl
    · simp only [hT, if_false, Option.toList]
      have h1 : T / Second ≤ 0 := by
        have : T / Second < 1 := Int.ediv_lt_of_lt_mul hS (by omega)
        omega
      have e1 : (T / Second).toNat = 0 := by omega
      rw [e1]
      simp [List.replicate_succ]

theorem entry_after (rps burst duration : Int) (clients : Clients) (now : Nat) (ip : String)
    (c : Outcome) :
    entry rps burst (RateLimitMiddleware rps burst duration clients now ip c).1 ip =
      { limiter := ((entry rps burst clients ip).limiter.Allow now).2, lastSeen := now } := by
  conv_lhs => unfold entry
  rw [RateLimitMiddleware_self]

theorem Allow_fields (lim : Limiter) (now : Nat) :
    (lim.Allow now).2.limit = lim.limit ∧ (lim.Allow now).2.burst = lim.burst ∧
      (lim.Allow now).2.last = now ∧
      (lim.Allow now).2.tokens =
        if Second ≤ (lim.refill now).tokens then (lim.refill now).tokens - Second
        else (lim.refill now).tokens := by
  unfold Limiter.Allow
  simp only []
  split <;> simp [Limiter.refill]

/-- The bucket of a client after `n + 1` requests at one instant. -/
theorem run_replicate_state (rps burst duration : Int) (now : Nat) (ip : String) :
    ∀ (n : Nat) (clients : Clients),
      ∃ cl, (run rps burst duration clients
          (List.replicate (n + 1) (Event.request ip now))).1 ip = some cl ∧
        cl.lastSeen = now ∧ cl.limiter.last = now ∧
        cl.limiter.limit = (entry rps burst clients ip).limiter.limit ∧
        cl.limiter.burst = (entry rps burst clients ip).limiter.burst ∧
        cl.limiter.tokens = refilled rps burst clients ip now -
          ((min (n + 1) (refilled rps burst clients ip now / Second).toNat : Nat) : Int) *
            Second := by
  have hS := Second_pos
  intro n
  induction n with
  | zero =>
    intro clients
    obtain ⟨h1, h2, h3, h4⟩ := Allow_fields (entry rps burst clients ip).limiter now
    refine ⟨{ limiter := ((entry rps burst clients ip).limiter.Allow now).2, lastSeen := now },
      ?_, rfl, h3, h1, h2, ?_⟩
    · simp only [List.replicate, run, step]
      exact RateLimitMiddleware_self rps burst duration clients now ip Outcome.init
    · simp only [h4]
      unfold refilled
      generalize ((entry rps burst clients ip).limiter.refill now).tokens = T
      by_cases hT : Second ≤ T
      · have h1 : 1 ≤ T / Second := Int.le_ediv_of_mul_le hS (by omega)
        have : min (0 + 1) (T / Second).toNat = 1 := by omega
        rw [this]; simp [hT]
      · have : T / Second < 1 := Int.ediv_lt_of_lt_mul hS (by omega)
        have : min (0 + 1) (T / Second).toNat = 0 := by omega
        rw [this]; simp [hT]
  | succ n ih =>
    intro clients
    obtain ⟨cl, hcl, hseen, hlast, hlim, hburst, htok⟩ :=
      ih (RateLimitMiddleware rps burst duration clients now ip Outcome.init).1
    obtain ⟨h1, h2, -, -⟩ := Allow_fields (entry rps burst clients ip).limiter now
    refine ⟨cl, ?_, hseen, hlast, ?_, ?_, ?_⟩
    · rw [List.replicate_succ]
      simpa only [run, step] using hcl
    · rw [hlim, entry_after, h1]
    · rw [hburst, entry_after, h2]
    · rw [htok, refilled_after]
      generalize refilled rps burst clients ip now = T
      by_cases hT : Second ≤ T
      · simp only [hT, if_true]
        have h1 : 1 ≤ T / Second := Int.le_ediv_of_mul_le hS (by omega)
        have h2 : (T - Second) / Second = T / Second - 1 := by
          have : T - Second = T + Second * (-1) := by ring
          rw [this, Int.add_mul_ediv_left _ _ (ne_of_gt hS)]; ring
        rw [h2]
        obtain ⟨k, hk⟩ : ∃ k : Nat, T / Second = (k : Int) + 1 := ⟨(T / Second - 1).toNat, by omega⟩
        rw [hk]
        have e1 : ((k : Int) + 1 - 1).toNat = k := by omega
        have e2 : ((k : Int) + 1).toNat = k + 1 := by omega
        rw [e1, e2, Nat.succ_min_succ]
        push_cast
        ring
      · simp only [hT, if_false]
        have : T / Second < 1 := Int.ediv_lt_of_lt_mul hS (by omega)
        have e1 : (T / Second).toNat = 0 := by omega
        rw [e1]
        simp

/-- A new bucket refilled at its first request holds exactly `burst` tokens. -/
theorem refilled_new (rps burst : Int) (hr : 0 ≤ rps) (clients : Clients) (ip : String)
    (now : Nat) (hnew : clients ip = none) :
    refilled rps burst clients ip now = burst * Second := by
  unfold refilled entry
  rw [hnew]
  simp only [Limiter.refill, NewLimiter]
  rw [min_eq_left]
  have : 0 ≤ ((now : Int) - ((0 : Nat) : Int)) * rps := by
    apply mul_nonneg _ hr
    simp
  omega

/-- C1: for every burst capacity `b ≥ 0` (and refill rate `rps ≥ 0`), when a client never
seen before sends requests with zero elapsed time between them, the handler lets exactly the
first `b` through to the next handler and aborts request `b + 1` with status 429. -/
theorem RateLimitMiddleware_fresh_burst (rps : Int) (hr : 0 ≤ rps) (b : Nat) (duration : Int)
    (clients : Clients) (ip : String) (now : Nat) (hnew : clients ip = none) :
    (run rps b duration clients (List.replicate (b + 1) (Event.request ip now))).2 =
        List.replicate b admitted ++ [denied duration] ∧
      admitted.nextRan = true ∧ admitted.aborted = false ∧
      (denied duration).status = some 429 ∧ (denied duration).aborted = true ∧
      (denied duration).nextRan = false := by
  refine ⟨?_, rfl, rfl, rfl, rfl, rfl⟩
  have hS := Second_pos
  rw [run_replicate_outcomes, refilled_new rps b hr clients ip now hnew,
    Int.mul_ediv_cancel _ (ne_of_gt hS)]
  simp

theorem RateLimitMiddleware_fresh_burst_witness :
    (run 1 (2 : Nat) Minute Clients.empty (List.replicate (2 + 1) (Event.request "10.0.0.1" 7))).2 =
        List.replicate 2 admitted ++ [denied Minute] ∧
      admitted.nextRan = true ∧ admitted.aborted = false ∧
      (denied Minute).status = some 429 ∧ (denied Minute).aborted = true ∧
      (denied Minute).nextRan = false :=
  RateLimitMiddleware_fresh_burst 1 (by decide) 2 Minute Clients.empty "10.0.0.1" 7 rfl

/-- The bucket of a new client after `b + j` immediate requests, `b ≥ 1`, refilled `dt`
later, holds `min (b, r * dt)` tokens. -/
theorem refilled_exhausted (r : Int) (hr : 0 < r) (b : Nat) (hb : 1 ≤ b) (duration : Int)
    (clients : Clients) (ip : String) (t0 dt j : Nat) (hnew : clients ip = none) :
    refilled r b (run r b duration clients (List.replicate (b + j) (Event.request ip t0))).1 ip
        (t0 + dt) = min ((b : Int) * Second) (r * dt) := by
  have hS := Second_pos
  obtain ⟨n, hn⟩ : ∃ n, b + j = n + 1 := ⟨b + j - 1, by omega⟩
  obtain ⟨cl, hcl, -, hlast, hlim, hburst, htok⟩ :=
    run_replicate_state r b duration t0 ip n clients
  rw [refilled_new r b (le_of_lt hr) clients ip t0 hnew,
    Int.mul_ediv_cancel _ (ne_of_gt hS)] at htok
  have hmin : min (n + 1) (b : Int).toNat = b := by omega
  rw [hmin, sub_self] at htok
  have he : (entry r b clients ip).limiter = NewLimiter r b := by
    unfold entry; rw [hnew]
  rw [he] at hlim hburst
  rw [hn]
  unfold refilled entry
  rw [hcl]
  simp only [Limiter.refill, htok, hlast, hlim, hburst, NewLimiter]
  congr 1
  push_cast
  ring

/-- The refilled count of a client depends on the entry of that client only. -/
theorem refilled_congr (rps burst : Int) (clients1 clients2 : Clients) (ip : String)
    (now : Nat) (h : clients1 ip = clients2 ip) :
    refilled rps burst clients1 ip now = refilled rps burst clients2 ip now := by
  unfold refilled entry
  rw [h]

/-- Passes of the cleanup loop at the instants `sweeps`: an absent entry stays absent, an
entry is kept as it is when no pass comes more than the retention window after its
`lastSeen`, and is deleted when one does. -/
theorem run_sweeps (rps burst duration : Int) (ip : String) :
    ∀ (sweeps : List Nat) (clients : Clients),
      (clients ip = none →
        (run rps burst duration clients (sweeps.map Event.sweep)).1 ip = none) ∧
      (∀ cl, clients ip = some cl →
        (∀ s ∈ sweeps, (s : Int) - (cl.lastSeen : Int) ≤ retention) →
        (run rps burst duration clients (sweeps.map Event.sweep)).1 ip = some cl) ∧
      (∀ cl, clients ip = some cl →
        (∃ s ∈ sweeps, retention < (s : Int) - (cl.lastSeen : Int)) →
        (run rps burst duration clients (sweeps.map Event.sweep)).1 ip = none) := by
  intro sweeps
  induction sweeps with
  | nil =>
    intro clients
    refine ⟨fun h => h, fun cl h _ => h, ?_⟩
    rintro cl - ⟨s, hs, -⟩
    cases hs
  | cons s ss ih =>
    intro clients
    obtain ⟨ih1, ih2, ih3⟩ := ih (cleanup clients s)
    simp only [List.map_cons, run, step]
    refine ⟨?_, ?_, ?_⟩
    · intro h
      apply ih1
      simp only [cleanup, h]
    · intro cl h hall
      apply ih2
      · simp only [cleanup, h]
        rw [if_neg (by
          have := hall s (List.mem_cons_self _ _)
          omega)]
      · intro s2 hs2
        exact hall s2 (List.mem_cons_of_mem _ hs2)
    · rintro cl h ⟨s2, hs2, hlate⟩
      by_cases hnow : retention < (s : Int) - (cl.lastSeen : Int)
      · apply ih1
        simp only [cleanup, h]
        rw [if_pos hnow]
      · have hkeep : cleanup clients s ip = some cl := by
          simp only [cleanup, h]
          rw [if_neg hnow]
        apply ih3 cl hkeep
        rcases List.mem_cons.mp hs2 with rfl | hin
        · exact absurd hlate hnow
        · exact ⟨s2, hin, hlate⟩

/-- The entry of a new client after `b + j` immediate requests at `t0`, `b ≥ 1`, exists and
was last seen at `t0`. -/
theorem exhausted_entry (r : Int) (b : Nat) (hb : 1 ≤ b) (duration : Int) (clients : Clients)
    (ip : String) (t0 j : Nat) :
    ∃ cl, (run r b duration clients (List.replicate (b + j) (Event.request ip t0))).1 ip =
        some cl ∧ cl.lastSeen = t0 := by
  obtain ⟨n, hn⟩ : ∃ n, b + j = n + 1 := ⟨b + j - 1, by omega⟩
  obtain ⟨cl, hcl, hseen, -⟩ := run_replicate_state r b duration t0 ip n clients
  rw [hn]
  exact ⟨cl, hcl, hseen⟩

/-- The refilled count of an exhausted bucket, `dt` later, when the passes of the cleanup
loop in between have kept it, and when one of them has deleted it. -/
theorem refilled_swept (r : Int) (hr : 0 < r) (b : Nat) (hb : 1 ≤ b) (duration : Int)
    (clients : Clients) (ip : String) (t0 dt j : Nat) (sweeps : List Nat)
    (hnew : clients ip = none) :
    ((∀ s ∈ sweeps, (s : Int) - (t0 : Int) ≤ retention) →
        refilled r b (run r b duration
          (run r b duration clients (List.replicate (b + j) (Event.request ip t0))).1
          (sweeps.map Event.sweep)).1 ip (t0 + dt) = min ((b : Int) * Second) (r * dt)) ∧
      ((∃ s ∈ sweeps, retention < (s : Int) - (t0 : Int)) →
        refilled r b (run r b duration
          (run r b duration clients (List.replicate (b + j) (Event.request ip t0))).1
          (sweeps.map Event.sweep)).1 ip (t0 + dt) = (b : Int) * Second) := by
  obtain ⟨cl, hcl, hseen⟩ := exhausted_entry r b hb duration clients ip t0 j
  obtain ⟨-, hkeep, hdrop⟩ := run_sweeps r b duration ip sweeps
    (run r b duration clients (List.replicate (b + j) (Event.request ip t0))).1
  constructor
  · intro hall
    rw [refilled_congr r b _ _ ip (t0 + dt)
      ((hkeep cl hcl (by rw [hseen]; exact hall)).trans hcl.symm)]
    exact refilled_exhausted r hr b hb duration clients ip t0 dt j hnew
  · intro hlate
    exact refilled_new r b (le_of_lt hr) _ ip (t0 + dt) (hdrop cl hcl (by rw [hseen]; exact hlate))

/-- C2, as stated, fails: with one token per second and capacity 130, a bucket exhausted at
`t0`, swept by the cleanup loop 121 seconds later and asked again 125 seconds after `t0`
admits 126 requests in a row, where `min (b, floor (r * dt))` is 125: the pass deleted the
idle bucket and the next request created a full one. -/
theorem RateLimitMiddleware_refill_after_sweep :
    min 130 ((1 : Int) * ((125000000000 : Nat) : Int) / Second).toNat = 125 ∧
      (run 1 (130 : Nat) Minute
          (run 1 (130 : Nat) Minute
            (run 1 (130 : Nat) Minute Clients.empty
              (List.replicate (130 + 0) (Event.request "A" 1000))).1
            ([1000 + 121000000000].map Event.sweep)).1
          (List.replicate 126 (Event.request "A" (1000 + 125000000000)))).2 =
        List.replicate 126 admitted := by
  refine ⟨by decide, ?_⟩
  rw [run_replicate_outcomes,
    (refilled_swept 1 (by decide) 130 (by decide) Minute Clients.empty "A" 1000 125000000000 0
      [1000 + 121000000000] rfl).2 ⟨1000 + 121000000000, by simp, by decide⟩,
    Int.mul_ediv_cancel _ (ne_of_gt Second_pos)]
  decide

/-- C2, amended: for every refill rate `r > 0` and burst capacity `b ≥ 1`, after a new bucket
has been exhausted by `b` immediate requests (and `j` further ones, all denied) and the
client then sends nothing for `dt` nanoseconds, while the cleanup loop passes at the
instants `sweeps`: when no pass comes more than the retention window of 2 minutes after
those requests (always so for `dt` up to 2 minutes), the next immediate requests are
admitted exactly `min (b, floor (r * dt))` times and the following one is denied; when a
pass does, the bucket is deleted and created anew, exactly `b` are admitted and the
following one is denied.  When `r * dt ≥ 1` token at least one request is admitted. -/
theorem RateLimitMiddleware_refill (r : Int) (hr : 0 < r) (b : Nat) (hb : 1 ≤ b)
    (duration : Int) (clients : Clients) (ip : String) (t0 dt j : Nat) (sweeps : List Nat)
    (hnew : clients ip = none) :
    (run r b duration clients (List.replicate (b + j) (Event.request ip t0))).2 =
        List.replicate b admitted ++ List.replicate j (denied duration) ∧
      ((∀ s ∈ sweeps, (s : Int) - (t0 : Int) ≤ retention) →
        (run r b duration
            (run r b duration
              (run r b duration clients (List.replicate (b + j) (Event.request ip t0))).1
              (sweeps.map Event.sweep)).1
            (List.replicate (min b (r * dt / Second).toNat + 1)
              (Event.request ip (t0 + dt)))).2 =
          List.replicate (min b (r * dt / Second).toNat) admitted ++ [denied duration]) ∧
      ((dt : Int) ≤ retention → (∀ s ∈ sweeps, s ≤ t0 + dt) →
        ∀ s ∈ sweeps, (s : Int) - (t0 : Int) ≤ retention) ∧
      ((∃ s ∈ sweeps, retention < (s : Int) - (t0 : Int)) →
        (run r b duration
            (run r b duration
              (run r b duration clients (List.replicate (b + j) (Event.request ip t0))).1
              (sweeps.map Event.sweep)).1
            (List.replicate (b + 1) (Event.request ip (t0 + dt)))).2 =
          List.replicate b admitted ++ [denied duration]) ∧
      (Second ≤ r * dt → 1 ≤ min b (r * dt / Second).toNat) := by
  have hS := Second_pos
  have hk : (min ((b : Int) * Second) (r * dt) / Second).toNat = min b (r * dt / Second).toNat := by
    generalize r * (dt : Int) = x
    unfold Second
    omega
  obtain ⟨hkeep, hdrop⟩ := refilled_swept r hr b hb duration clients ip t0 dt j sweeps hnew
  refine ⟨?_, ?_, ?_, ?_, ?_⟩
  · rw [run_replicate_outcomes, refilled_new r b (le_of_lt hr) clients ip t0 hnew,
      Int.mul_ediv_cancel _ (ne_of_gt hS)]
    simp
  · intro hall
    rw [run_replicate_outcomes, hkeep hall, hk]
    simp
  · intro hdt hbefore s hs
    have := hbefore s hs
    omega
  · intro hlate
    rw [run_replicate_outcomes, hdrop hlate, Int.mul_ediv_cancel _ (ne_of_gt hS)]
    simp
  · intro h
    have : 1 ≤ r * dt / Second := Int.le_ediv_of_mul_le hS (by omega)
    omega

/-- The scenario of the spec: capacity 5, one token per second; five immediate requests are
admitted, the sixth is denied, and two seconds later, after a pass of the cleanup loop,
exactly two more are admitted before the third is denied. -/
theorem RateLimitMiddleware_refill_witness :
    (run 1 (5 : Nat) Minute
        (run 1 (5 : Nat) Minute
          (run 1 (5 : Nat) Minute Clients.empty
            (List.replicate (5 + 1) (Event.request "A" 1000))).1
          ([1000 + 1000000000].map Event.sweep)).1
        (List.replicate (2 + 1) (Event.request "A" (1000 + 2000000000)))).2 =
      List.replicate 2 admitted ++ [denied Minute] :=
  (RateLimitMiddleware_refill 1 (by decide) 5 (by decide) Minute Clients.empty "A" 1000
    2000000000 1 [1000 + 1000000000] rfl).2.1 (by decide)

theorem Allow_inv (rps burst : Int) (hr : 0 ≤ rps) (lim : Limiter) (now : Nat)
    (hin : lim.InBounds) (hb : lim.burst = burst) (hl : lim.limit = rps) (hlast : lim.last ≤ now) :
    (lim.Allow now).2.InBounds ∧ (lim.Allow now).2.burst = burst ∧
      (lim.Allow now).2.limit = rps ∧ (lim.Allow now).2.last ≤ now := by
  have hS := Second_pos
  obtain ⟨h1, h2, h3, h4⟩ := Allow_fields lim now
  obtain ⟨hlo, hhi⟩ := hin
  have hadd : 0 ≤ ((now : Int) - (lim.last : Int)) * lim.limit := by
    apply mul_nonneg
    · omega
    · rw [hl]; exact hr
  have hT0 : 0 ≤ (lim.refill now).tokens := by
    simp only [Limiter.refill]
    exact le_min (by omega) (by omega)
  have hT1 : (lim.refill now).tokens ≤ lim.burst * Second := by
    simp only [Limiter.refill]
    exact min_le_left _ _
  refine ⟨?_, by rw [h2, hb], by rw [h1, hl], by rw [h3]⟩
  unfold Limiter.InBounds
  rw [h4, h2]
  split <;> constructor <;> omega

theorem step_inv (rps burst duration : Int) (hr : 0 ≤ rps) (hb : 0 ≤ burst) (T : Nat)
    (clients : Clients) (e : Event) (hinv : Inv rps burst T clients) (hT : T ≤ e.time) :
    Inv rps burst e.time (step rps burst duration clients e).1 := by
  have hS := Second_pos
  cases e with
  | request ip now =>
    intro ip2 cl hcl
    simp only [step, Event.time] at hcl hT ⊢
    by_cases hip : ip2 = ip
    · subst hip
      rw [RateLimitMiddleware_self] at hcl
      have hent : (entry rps burst clients ip2).limiter.InBounds ∧
          (entry rps burst clients ip2).limiter.burst = burst ∧
          (entry rps burst clients ip2).limiter.limit = rps ∧
          (entry rps burst clients ip2).limiter.last ≤ now := by
        unfold entry
        cases h : clients ip2 with
        | none =>
          refine ⟨?_, rfl, rfl, Nat.zero_le _⟩
          simp only [Limiter.InBounds, NewLimiter]
          exact ⟨mul_nonneg hb (le_of_lt hS), le_refl _⟩
        | some c0 =>
          obtain ⟨a1, a2, a3, a4⟩ := hinv ip2 c0 h
          exact ⟨a1, a2, a3, le_trans a4 hT⟩
      obtain ⟨a1, a2, a3, a4⟩ := hent
      have := Allow_inv rps burst hr _ now a1 a2 a3 a4
      cases hcl
      exact this
    · rw [RateLimitMiddleware_other _ _ _ _ _ _ _ _ hip] at hcl
      obtain ⟨a1, a2, a3, a4⟩ := hinv ip2 cl hcl
      exact ⟨a1, a2, a3, le_trans a4 hT⟩
  | sweep now =>
    intro ip2 cl hcl
    simp only [step, cleanup, Event.time] at hcl hT ⊢
    cases h : clients ip2 with
    | none => rw [h] at hcl; cases hcl
    | some c0 =>
      rw [h] at hcl
      simp only [] at hcl
      split at hcl
      · cases hcl
      · obtain ⟨a1, a2, a3, a4⟩ := hinv ip2 c0 h
        cases hcl
        exact ⟨a1, a2, a3, le_trans a4 hT⟩

theorem run_inv (rps burst duration : Int) (hr : 0 ≤ rps) (hb : 0 ≤ burst) :
    ∀ (events : List Event) (T : Nat) (clients : Clients), Inv rps burst T clients →
      (∀ e ∈ events, T ≤ e.time) → events.Pairwise (fun a b => a.time ≤ b.time) →
      ∀ ip cl, (run rps burst duration clients events).1 ip = some cl → cl.limiter.InBounds ∧
        cl.limiter.burst = burst := by
  intro events
  induction events with
  | nil =>
    intro T clients hinv _ _ ip cl hcl
    obtain ⟨a1, a2, -, -⟩ := hinv ip cl hcl
    exact ⟨a1, a2⟩
  | cons e es ih =>
    intro T clients hinv hT hp ip cl hcl
    rw [List.pairwise_cons] at hp
    simp only [run] at hcl
    exact ih e.time _ (step_inv rps burst duration hr hb T clients e hinv
      (hT e (List.mem_cons_self _ _))) hp.1 hp.2 ip cl hcl

/-- C3: in every state reachable from the empty client map by a sequence of requests (from
any clients) and sweeps at non-decreasing instants, every bucket of the map holds a token
count `t` with `0 ≤ t ≤ burst` (for a rate and a capacity that are not negative); the count
is scaled by `10^9`. -/
theorem tokens_within_bounds (rps burst duration : Int) (hr : 0 ≤ rps) (hb : 0 ≤ burst)
    (events : List Event) (hmono : events.Pairwise (fun a b => a.time ≤ b.time))
    (ip : String) (cl : RateLimiter)
    (hcl : (run rps burst duration Clients.empty events).1 ip = some cl) :
    0 ≤ cl.limiter.tokens ∧ cl.limiter.tokens ≤ burst * Second := by
  have hinv : Inv rps burst 0 Clients.empty := by
    intro ip2 c2 h
    cases h
  obtain ⟨⟨h1, h2⟩, h3⟩ := run_inv rps burst duration hr hb events 0 Clients.empty hinv
    (fun _ _ => Nat.zero_le _) hmono ip cl hcl
  rw [h3] at h2
  exact ⟨h1, h2⟩

theorem tokens_within_bounds_witness :
    (run 1 2 Minute Clients.empty [Event.request "A" 5, Event.sweep 7, Event.request "B" 9]).1 "A" =
        some { limiter := { limit := 1, burst := 2, tokens := 1000000000, last := 5 },
               lastSeen := 5 } ∧
      (0 : Int) ≤ 1000000000 ∧ (1000000000 : Int) ≤ 2 * Second :=
  ⟨by decide, tokens_within_bounds 1 2 Minute (by decide) (by decide)
    [Event.request "A" 5, Event.sweep 7, Event.request "B" 9] (by decide) "A"
    { limiter := { limit := 1, burst := 2, tokens := 1000000000, last := 5 }, lastSeen := 5 }
    (by decide)⟩

theorem run_lastSeen (rps burst duration : Int) (ip : String) :
    ∀ (events : List Event) (clients : Clients) (prev : Option Nat),
      (∀ cl, clients ip = some cl → prev = some cl.lastSeen) →
      ∀ cl, (run rps burst duration clients events).1 ip = some cl →
        lastRequest ip prev events = some cl.lastSeen := by
  intro events
  induction events with
  | nil => intro clients prev h cl hcl; exact h cl hcl
  | cons e es ih =>
    intro clients prev h cl hcl
    simp only [run] at hcl
    cases e with
    | request ip2 now =>
      simp only [lastRequest]
      refine ih _ _ ?_ cl hcl
      intro c2 hc2
      simp only [step] at hc2
      by_cases hip : ip2 = ip
      · subst hip
        rw [RateLimitMiddleware_self] at hc2
        cases hc2
        simp
      · rw [RateLimitMiddleware_other _ _ _ _ _ _ _ _ (Ne.symm hip)] at hc2
        simp only [hip, if_false]
        exact h c2 hc2
    | sweep now =>
      simp only [lastRequest]
      refine ih _ _ ?_ cl hcl
      intro c2 hc2
      simp only [step, cleanup] at hc2
      cases hc : clients ip with
      | none => rw [hc] at hc2; cases hc2
      | some c0 =>
        rw [hc] at hc2
        simp only [] at hc2
        split at hc2
        · cases hc2
        · have := h c0 hc
          cases hc2
          exact this

/-- C4: for every client map and every sweep instant, one pass of the cleanup loop removes
exactly the buckets whose `lastSeen` is more than the retention window in the past and leaves
every other bucket as it was; the window is twice the sweep interval of one minute; and in a
run of the handler `lastSeen` is the instant of the most recent request of the client,
whether it was admitted or denied. -/
theorem cleanup_removes_idle (clients : Clients) (now : Nat) :
    (∀ ip cl, clients ip = some cl → retention < (now : Int) - (cl.lastSeen : Int) →
        cleanup clients now ip = none) ∧
      (∀ ip cl, clients ip = some cl → ¬ retention < (now : Int) - (cl.lastSeen : Int) →
        cleanup clients now ip = some cl) ∧
      (∀ ip, clients ip = none → cleanup clients now ip = none) ∧
      retention = 2 * sweepInterval ∧ sweepInterval = 60 * 1000000000 ∧
      (∀ (rps burst duration : Int) (events : List Event) (ip : String) (cl : RateLimiter),
        (run rps burst duration Clients.empty events).1 ip = some cl →
          lastRequest ip none events = some cl.lastSeen) := by
  refine ⟨?_, ?_, ?_, rfl, rfl, ?_⟩
  · intro ip cl h hidle
    simp only [cleanup, h]
    rw [if_pos hidle]
  · intro ip cl h hidle
    simp only [cleanup, h]
    rw [if_neg hidle]
  · intro ip h
    simp only [cleanup, h]
  · intro rps burst duration events ip cl hcl
    exact run_lastSeen rps burst duration ip events Clients.empty none
      (fun c2 h2 => by cases h2) cl hcl

/-! ## Theorems: the credential gate -/

/-- The row found by the lookup is a stored row whose ID is the one the value denotes; the
empty string denotes none. -/
theorem First_some (db : List User) (v : Value) (u : User) (h : First db v = some u) :
    u ∈ db ∧ subjectID v = some (u.ID : Int) ∧ v ≠ Value.str "" := by
  unfold First at h
  have h1 := List.find?_some h
  have h2 := List.mem_of_find?_eq_some h
  simp only [beq_iff_eq] at h1
  refine ⟨h2, h1, ?_⟩
  intro hc
  rw [hc] at h1
  have h0 : subjectID (Value.str "") = none := by decide
  rw [h0] at h1
  cases h1

/-- What `jwt.Parse` with the key function of `RequireAdmin` accepts. -/
theorem Parse_ok (claimsValid : MapClaims → Nat → Bool) (env : String → String) (now : Nat)
    (ts : TokenString) (token : Token)
    (h : Parse claimsValid now ts (keyFunc env) = .ok token) :
    ∃ alg claims sig, ts = .jws alg claims sig ∧ SignedWith (env "JWT_SECRET") alg claims sig ∧
      claimsValid claims now = true ∧ token.Claims = claims ∧ token.Valid = true := by
  cases ts with
  | malformed raw => simp [Parse] at h
  | jws alg claims sig =>
    refine ⟨alg, claims, sig, rfl, ?_⟩
    simp only [Parse] at h
    cases hm : GetSigningMethod alg with
    | none => simp [hm] at h
    | some m =>
      simp only [hm, keyFunc] at h
      cases hh : m.isHMAC with
      | false => simp [hh] at h
      | true =>
        simp only [hh, Bool.not_true] at h
        cases hcv : claimsValid claims now with
        | false => simp [hcv] at h
        | true =>
          simp only [hcv, Bool.not_true, SigningMethod.Verify, hh, Bool.true_and] at h
          by_cases hsig : sig = Signature.signed m (env "JWT_SECRET") alg claims
          · simp [hsig] at h
            refine ⟨⟨m, hm, hh, hsig⟩, rfl, ?_, ?_⟩ <;> rw [← h]
          · simp [hsig] at h

/-- A token signed with the configured key whose registered claims the library accepts is
returned by `jwt.Parse`. -/
theorem Parse_signed (claimsValid : MapClaims → Nat → Bool) (env : String → String) (now : Nat)
    (alg : String) (claims : MapClaims) (sig : Signature)
    (hs : SignedWith (env "JWT_SECRET") alg claims sig) (hcv : claimsValid claims now = true) :
    ∃ token, Parse claimsValid now (.jws alg claims sig) (keyFunc env) = .ok token ∧
      token.Claims = claims ∧ token.Valid = true := by
  obtain ⟨m, hm, hh, hsig⟩ := hs
  refine ⟨{ Method := m, alg := alg, Claims := claims, Signature := sig, Valid := true }, ?_,
    rfl, rfl⟩
  simp [Parse, hm, keyFunc, hh, hcv, SigningMethod.Verify, hsig]

/-- The successful path of `RequireAdmin`. -/
theorem RequireAdmin_success (claimsValid : MapClaims → Nat → Bool) (env : String → String)
    (db : List User) (now : Nat) (cookies : String → Option TokenString)
    (alg : String) (claims : MapClaims) (sig : Signature) (e : Int) (v : Value) (u : User)
    (hcookie : cookies "Authorization" = some (.jws alg claims sig))
    (hs : SignedWith (env "JWT_SECRET") alg claims sig)
    (hcv : claimsValid claims now = true)
    (hexp : claims.lookup "exp" = some (.num e)) (hfresh : ¬ e * Second < (now : Int))
    (hsub : claims.lookup "sub" = some v) (hfound : First db v = some u)
    (hrole : u.Role = "admin") :
    RequireAdmin claimsValid env db now cookies Outcome.init =
      (Outcome.init.Set "user" u).Next := by
  obtain ⟨token, hparse, hclaims, hvalid⟩ := Parse_signed claimsValid env now alg claims sig hs hcv
  have hv : v ≠ Value.str "" := (First_some db v u hfound).2.2
  simp [RequireAdmin, hcookie, hparse, hclaims, hvalid, hexp, hfresh, hsub, hv, hfound, hrole]

/-- The ways `RequireAdmin` ends: the next handler runs with the user bound; or the request
is aborted with 401 and the message of the first check it fails; or it is aborted with 403
because the stored user is not an administrator. -/
theorem RequireAdmin_cases (claimsValid : MapClaims → Nat → Bool) (env : String → String)
    (db : List User) (now : Nat) (cookies : String → Option TokenString) :
    (∃ alg claims sig e v u, cookies "Authorization" = some (.jws alg claims sig) ∧
        SignedWith (env "JWT_SECRET") alg claims sig ∧ claimsValid claims now = true ∧
        claims.lookup "exp" = some (.num e) ∧ ¬ e * Second < (now : Int) ∧
        claims.lookup "sub" = some v ∧ v ≠ Value.str "" ∧ First db v = some u ∧
        u.Role = "admin" ∧
        RequireAdmin claimsValid env db now cookies Outcome.init =
          (Outcome.init.Set "user" u).Next) ∨
      (∃ msg, FailedCheck claimsValid env db now cookies msg ∧
        RequireAdmin claimsValid env db now cookies Outcome.init =
          Outcome.init.AbortWithStatusJSON StatusUnauthorized (errorBody msg)) ∨
      (∃ alg claims sig e v u, cookies "Authorization" = some (.jws alg claims sig) ∧
        SignedWith (env "JWT_SECRET") alg claims sig ∧ claimsValid claims now = true ∧
        claims.lookup "exp" = some (.num e) ∧ ¬ e * Second < (now : Int) ∧
        claims.lookup "sub" = some v ∧ v ≠ Value.str "" ∧ First db v = some u ∧
        u.Role ≠ "admin" ∧
        RequireAdmin claimsValid env db now cookies Outcome.init =
          Outcome.init.AbortWithStatusJSON StatusForbidden
            (errorBody "forbidden - admin access required")) := by
  cases hcookie : cookies "Authorization" with
  | none =>
    refine Or.inr (Or.inl ⟨"unauthorized - no token provided", Or.inl ⟨rfl, hcookie⟩, ?_⟩)
    simp [RequireAdmin, hcookie]
  | some ts =>
    cases hparse : Parse claimsValid now ts (keyFunc env) with
    | error err =>
      refine Or.inr (Or.inl ⟨"unauthorized - invalid token",
        Or.inr (Or.inl ⟨rfl, ts, err, hcookie, hparse⟩), ?_⟩)
      simp [RequireAdmin, hcookie, hparse]
    | ok token =>
      obtain ⟨alg, claims, sig, hts, hs, hcv, hclaims, hvalid⟩ :=
        Parse_ok claimsValid env now ts token hparse
      subst hts
      have hexpired : ∀ x, claims.lookup "exp" = x → (∀ e, x ≠ some (.num e)) →
          RequireAdmin claimsValid env db now cookies Outcome.init =
            Outcome.init.AbortWithStatusJSON StatusUnauthorized
              (errorBody "unauthorized - token expired") := by
        intro x hx hne
        simp only [RequireAdmin, hcookie, hparse, hclaims, hvalid, hx]
        cases x with
        | none => rfl
        | some w =>
          cases w with
          | num e => exact absurd rfl (hne e)
          | null => rfl
          | bool b => rfl
          | str s => rfl
          | other => rfl
      by_cases hnum : ∃ e, claims.lookup "exp" = some (Value.num e)
      · obtain ⟨e, hexp⟩ := hnum
        by_cases hpast : e * Second < (now : Int)
        · refine Or.inr (Or.inl ⟨"unauthorized - token expired",
            Or.inr (Or.inr (Or.inl ⟨rfl, alg, claims, sig, hcookie, hs, hcv,
              Or.inr ⟨e, hexp, hpast⟩⟩)), ?_⟩)
          simp [RequireAdmin, hcookie, hparse, hclaims, hvalid, hexp, hpast]
        · cases hsub : claims.lookup "sub" with
          | none =>
            refine Or.inr (Or.inl ⟨"unauthorized - invalid user ID",
              Or.inr (Or.inr (Or.inr (Or.inl ⟨rfl, alg, claims, sig, e, hcookie, hs, hcv, hexp,
                hpast, Or.inl hsub⟩))), ?_⟩)
            simp [RequireAdmin, hcookie, hparse, hclaims, hvalid, hexp, hpast, hsub]
          | some v =>
            by_cases hv : v = Value.str ""
            · refine Or.inr (Or.inl ⟨"unauthorized - invalid user ID",
                Or.inr (Or.inr (Or.inr (Or.inl ⟨rfl, alg, claims, sig, e, hcookie, hs, hcv,
                  hexp, hpast, Or.inr (by rw [hsub, hv])⟩))), ?_⟩)
              simp [RequireAdmin, hcookie, hparse, hclaims, hvalid, hexp, hpast, hsub, hv]
            · cases hfound : First db v with
              | none =>
                refine Or.inr (Or.inl ⟨"unauthorized - user not found",
                  Or.inr (Or.inr (Or.inr (Or.inr ⟨rfl, alg, claims, sig, e, v, hcookie, hs,
                    hcv, hexp, hpast, hsub, hv, hfound⟩))), ?_⟩)
                simp [RequireAdmin, hcookie, hparse, hclaims, hvalid, hexp, hpast, hsub, hv,
                  hfound]
              | some u =>
                by_cases hrole : u.Role = "admin"
                · exact Or.inl ⟨alg, claims, sig, e, v, u, rfl, hs, hcv, hexp, hpast, hsub,
                    hv, hfound, hrole,
                    RequireAdmin_success claimsValid env db now cookies alg claims sig e v u
                      hcookie hs hcv hexp hpast hsub hfound hrole⟩
                · refine Or.inr (Or.inr ⟨alg, claims, sig, e, v, u, rfl, hs, hcv, hexp,
                    hpast, hsub, hv, hfound, hrole, ?_⟩)
                  simp [RequireAdmin, hcookie, hparse, hclaims, hvalid, hexp, hpast, hsub, hv,
                    hfound, hrole]
      · have hne : ∀ e, claims.lookup "exp" ≠ some (Value.num e) := fun e he => hnum ⟨e, he⟩
        exact Or.inr (Or.inl ⟨"unauthorized - token expired",
          Or.inr (Or.inr (Or.inl ⟨rfl, alg, claims, sig, hcookie, hs, hcv, Or.inl hne⟩)),
          hexpired _ rfl hne⟩)

/-- The message of a failed check is one of the six of the source, and never the third. -/
theorem FailedCheck_message (claimsValid : MapClaims → Nat → Bool) (env : String → String)
    (db : List User) (now : Nat) (cookies : String → Option TokenString) (msg : String)
    (h : FailedCheck claimsValid env db now cookies msg) :
    msg ∈ unauthorizedMessages ∧ msg ≠ "unauthorized - invalid claims" := by
  rcases h with ⟨rfl, -⟩ | ⟨rfl, -⟩ | ⟨rfl, -⟩ | ⟨rfl, -⟩ | ⟨rfl, -⟩ <;>
    exact ⟨by decide, by decide⟩

/-- C5: for every request whose cookie `Authorization` holds a token that verifies (signed
with the configured key, registered claims accepted by the library), is unexpired and has a
subject that resolves to a stored user, if the role of that user is not "admin" then
`RequireAdmin` aborts with 403 and not with 401, binds nothing, and the next handler is not
run. -/
theorem RequireAdmin_forbidden (claimsValid : MapClaims → Nat → Bool) (env : String → String)
    (db : List User) (now : Nat) (cookies : String → Option TokenString)
    (alg : String) (claims : MapClaims) (sig : Signature) (e : Int) (v : Value) (u : User)
    (hcookie : cookies "Authorization" = some (.jws alg claims sig))
    (hs : SignedWith (env "JWT_SECRET") alg claims sig)
    (hcv : claimsValid claims now = true)
    (hexp : claims.lookup "exp" = some (.num e)) (hfresh : ¬ e * Second < (now : Int))
    (hsub : claims.lookup "sub" = some v) (hfound : First db v = some u)
    (hrole : u.Role ≠ "admin") :
    RequireAdmin claimsValid env db now cookies Outcome.init =
        Outcome.init.AbortWithStatusJSON StatusForbidden
          (errorBody "forbidden - admin access required") ∧
      (RequireAdmin claimsValid env db now cookies Outcome.init).status = some 403 ∧
      (RequireAdmin claimsValid env db now cookies Outcome.init).status ≠ some 401 ∧
      (RequireAdmin claimsValid env db now cookies Outcome.init).aborted = true ∧
      (RequireAdmin claimsValid env db now cookies Outcome.init).nextRan = false ∧
      (RequireAdmin claimsValid env db now cookies Outcome.init).keys = [] := by
  obtain ⟨token, hparse, hclaims, hvalid⟩ := Parse_signed claimsValid env now alg claims sig hs hcv
  have hv : v ≠ Value.str "" := (First_some db v u hfound).2.2
  have h : RequireAdmin claimsValid env db now cookies Outcome.init =
      Outcome.init.AbortWithStatusJSON StatusForbidden
        (errorBody "forbidden - admin access required") := by
    simp [RequireAdmin, hcookie, hparse, hclaims, hvalid, hexp, hfresh, hsub, hv, hfound, hrole]
  rw [h]
  exact ⟨rfl, rfl, by decide, rfl, rfl, rfl⟩

theorem RequireAdmin_forbidden_witness :
    (RequireAdmin timeClaimsValid sampleEnv sampleDB sampleNow
        (authCookie (signedToken .HS256 "HS256" "0f4a-secret" (sampleClaims 2 1700086400)))
        Outcome.init).status = some 403 :=
  (RequireAdmin_forbidden timeClaimsValid sampleEnv sampleDB sampleNow
    (authCookie (signedToken .HS256 "HS256" "0f4a-secret" (sampleClaims 2 1700086400)))
    "HS256" (sampleClaims 2 1700086400)
    (Signature.signed .HS256 "0f4a-secret" "HS256" (sampleClaims 2 1700086400))
    1700086400 (Value.num 2) sampleReader rfl ⟨.HS256, by decide, rfl, rfl⟩ (by decide)
    (by decide) (by decide) (by decide) (by decide) (by decide)).2.1

/-- C7: for every token whose `exp` claim is before the current instant (by one second, or
by any lesser amount: no tolerance is applied), `RequireAdmin` rejects the request with 401,
whatever the signature, the subject, the stored users and their roles are. -/
theorem RequireAdmin_expired (claimsValid : MapClaims → Nat → Bool) (env : String → String)
    (db : List User) (now : Nat) (cookies : String → Option TokenString)
    (alg : String) (claims : MapClaims) (sig : Signature) (e : Int)
    (hcookie : cookies "Authorization" = some (.jws alg claims sig))
    (hexp : claims.lookup "exp" = some (.num e)) (hpast : e * Second < (now : Int)) :
    (RequireAdmin claimsValid env db now cookies Outcome.init).status = some 401 ∧
      (RequireAdmin claimsValid env db now cookies Outcome.init).aborted = true ∧
      (RequireAdmin claimsValid env db now cookies Outcome.init).nextRan = false ∧
      (RequireAdmin claimsValid env db now cookies Outcome.init).keys = [] := by
  cases hparse : Parse claimsValid now (.jws alg claims sig) (keyFunc env) with
  | error err =>
    have h : RequireAdmin claimsValid env db now cookies Outcome.init =
        Outcome.init.AbortWithStatusJSON StatusUnauthorized
          (errorBody "unauthorized - invalid token") := by
      simp [RequireAdmin, hcookie, hparse]
    rw [h]
    exact ⟨rfl, rfl, rfl, rfl⟩
  | ok token =>
    obtain ⟨alg2, claims2, sig2, hts, -, -, hclaims, hvalid⟩ :=
      Parse_ok claimsValid env now _ token hparse
    cases hts
    have h : RequireAdmin claimsValid env db now cookies Outcome.init =
        Outcome.init.AbortWithStatusJSON StatusUnauthorized
          (errorBody "unauthorized - token expired") := by
      simp [RequireAdmin, hcookie, hparse, hclaims, hvalid, hexp, hpast]
    rw [h]
    exact ⟨rfl, rfl, rfl, rfl⟩

theorem RequireAdmin_expired_witness :
    (RequireAdmin timeClaimsValid sampleEnv sampleDB sampleNow
        (authCookie (signedToken .HS256 "HS256" "0f4a-secret" (sampleClaims 1 1699999999)))
        Outcome.init).status = some 401 :=
  (RequireAdmin_expired timeClaimsValid sampleEnv sampleDB sampleNow
    (authCookie (signedToken .HS256 "HS256" "0f4a-secret" (sampleClaims 1 1699999999)))
    "HS256" (sampleClaims 1 1699999999)
    (Signature.signed .HS256 "0f4a-secret" "HS256" (sampleClaims 1 1699999999))
    1699999999 rfl (by decide) (by decide)).1

/-- C8, as stated, fails: a token signed with the configured key whose `exp` is in the
future and whose subject is the stored administrator, but which also carries a `nbf` claim
in the future, is refused inside `jwt.Parse` by the validation of the registered claims:
the request is aborted with 401 and the next handler is not run. -/
theorem RequireAdmin_rejects_future_nbf :
    List.lookup "exp" [("sub", Value.num 1), ("exp", Value.num 1700086400),
        ("nbf", Value.num 1700050000)] = some (Value.num 1700086400) ∧
      (sampleNow : Int) < 1700086400 * Second ∧
      First sampleDB (Value.num 1) = some sampleAdmin ∧ sampleAdmin.Role = "admin" ∧
      (RequireAdmin timeClaimsValid sampleEnv sampleDB sampleNow
        (authCookie (signedToken .HS256 "HS256" (sampleEnv "JWT_SECRET")
          [("sub", Value.num 1), ("exp", Value.num 1700086400),
           ("nbf", Value.num 1700050000)])) Outcome.init).status = some 401 ∧
      (RequireAdmin timeClaimsValid sampleEnv sampleDB sampleNow
        (authCookie (signedToken .HS256 "HS256" (sampleEnv "JWT_SECRET")
          [("sub", Value.num 1), ("exp", Value.num 1700086400),
           ("nbf", Value.num 1700050000)])) Outcome.init).nextRan = false := by
  decide

/-- C8, amended: for every token signed with the configured key whose registered claims
pass the validation of the library inside `jwt.Parse`, whose `exp` (whole seconds) is in
the future and whose subject identifies a stored user with role "admin", `RequireAdmin`
does not abort: it binds under the key "user" the stored record whose ID is the one the
subject claim denotes, and then runs the next handler. -/
theorem RequireAdmin_admits (claimsValid : MapClaims → Nat → Bool) (env : String → String)
    (db : List User) (now : Nat) (cookies : String → Option TokenString)
    (alg : String) (claims : MapClaims) (sig : Signature) (e : Int) (v : Value) (u : User)
    (hcookie : cookies "Authorization" = some (.jws alg claims sig))
    (hs : SignedWith (env "JWT_SECRET") alg claims sig)
    (hcv : claimsValid claims now = true)
    (hexp : claims.lookup "exp" = some (.num e)) (hfuture : (now : Int) < e * Second)
    (hsub : claims.lookup "sub" = some v) (hfound : First db v = some u)
    (hrole : u.Role = "admin") :
    RequireAdmin claimsValid env db now cookies Outcome.init =
        (Outcome.init.Set "user" u).Next ∧
      (RequireAdmin claimsValid env db now cookies Outcome.init).aborted = false ∧
      (RequireAdmin claimsValid env db now cookies Outcome.init).status = none ∧
      (RequireAdmin claimsValid env db now cookies Outcome.init).Get "user" = some u ∧
      (RequireAdmin claimsValid env db now cookies Outcome.init).nextRan = true ∧
      u ∈ db ∧ subjectID v = some (u.ID : Int) := by
  have hid : u ∈ db ∧ subjectID v = some (u.ID : Int) :=
    ⟨(First_some db v u hfound).1, (First_some db v u hfound).2.1⟩
  have hfresh : ¬ e * Second < (now : Int) := by omega
  rw [RequireAdmin_success claimsValid env db now cookies alg claims sig e v u hcookie hs hcv
    hexp hfresh hsub hfound hrole]
  exact ⟨rfl, rfl, rfl, by simp [Outcome.Get, Outcome.Next, Outcome.Set], rfl, hid⟩

theorem RequireAdmin_admits_witness :
    (RequireAdmin timeClaimsValid sampleEnv sampleDB sampleNow
        (authCookie (signedToken .HS256 "HS256" "0f4a-secret" (sampleClaims 1 1700086400)))
        Outcome.init).Get "user" = some sampleAdmin :=
  (RequireAdmin_admits timeClaimsValid sampleEnv sampleDB sampleNow
    (authCookie (signedToken .HS256 "HS256" "0f4a-secret" (sampleClaims 1 1700086400)))
    "HS256" (sampleClaims 1 1700086400)
    (Signature.signed .HS256 "0f4a-secret" "HS256" (sampleClaims 1 1700086400))
    1700086400 (Value.num 1) sampleAdmin rfl ⟨.HS256, by decide, rfl, rfl⟩ (by decide)
    (by decide) (by decide) (by decide) (by decide) (by decide)).2.2.2.1

/-- The header names that resolve to an HMAC method. -/
theorem GetSigningMethod_isHMAC (alg : String) (m : SigningMethod)
    (h : GetSigningMethod alg = some m) (hh : m.isHMAC = true) :
    alg = "HS256" ∨ alg = "HS384" ∨ alg = "HS512" := by
  have hmem : ∀ (l : List (String × SigningMethod)), l.lookup alg = some m → (alg, m) ∈ l := by
    intro l
    induction l with
    | nil => intro h0; cases h0
    | cons p ps ih =>
      intro h0
      obtain ⟨a, b⟩ := p
      rw [List.lookup_cons] at h0
      by_cases hab : alg = a
      · subst hab
        simp only [beq_self_eq_true] at h0
        cases h0
        exact List.mem_cons_self _ _
      · have : (alg == a) = false := by simpa using hab
        rw [this] at h0
        exact List.mem_cons_of_mem _ (ih h0)
  have hall : ∀ p ∈ signingMethods, p.2.isHMAC = true →
      p.1 = "HS256" ∨ p.1 = "HS384" ∨ p.1 = "HS512" := by decide
  exact hall (alg, m) (hmem signingMethods h) hh

/-- C6, as stated, fails: a token that declares HS384 and carries the HS384 value computed
with `JWT_SECRET` is not rejected; the administrator is bound and the next handler runs. -/
theorem RequireAdmin_accepts_HS384 :
    "HS384" ≠ "HS256" ∧
      (RequireAdmin timeClaimsValid sampleEnv sampleDB sampleNow
        (authCookie (signedToken .HS384 "HS384" (sampleEnv "JWT_SECRET")
          (sampleClaims 1 1700086400))) Outcome.init).status ≠ some 401 ∧
      (RequireAdmin timeClaimsValid sampleEnv sampleDB sampleNow
        (authCookie (signedToken .HS384 "HS384" (sampleEnv "JWT_SECRET")
          (sampleClaims 1 1700086400))) Outcome.init).aborted = false ∧
      (RequireAdmin timeClaimsValid sampleEnv sampleDB sampleNow
        (authCookie (signedToken .HS384 "HS384" (sampleEnv "JWT_SECRET")
          (sampleClaims 1 1700086400))) Outcome.init).nextRan = true := by
  decide

/-- C6, amended: for every token whose declared signing algorithm is not an HMAC one (HS256,
HS384, HS512), `RequireAdmin` rejects the request with 401, whatever its signature. -/
theorem RequireAdmin_rejects_other_methods (claimsValid : MapClaims → Nat → Bool)
    (env : String → String) (db : List User) (now : Nat)
    (cookies : String → Option TokenString) (alg : String) (claims : MapClaims)
    (sig : Signature)
    (hcookie : cookies "Authorization" = some (.jws alg claims sig))
    (h256 : alg ≠ "HS256") (h384 : alg ≠ "HS384") (h512 : alg ≠ "HS512") :
    RequireAdmin claimsValid env db now cookies Outcome.init =
        Outcome.init.AbortWithStatusJSON StatusUnauthorized
          (errorBody "unauthorized - invalid token") ∧
      (RequireAdmin claimsValid env db now cookies Outcome.init).status = some 401 ∧
      (RequireAdmin claimsValid env db now cookies Outcome.init).nextRan = false := by
  have hparse : ∃ err, Parse claimsValid now (.jws alg claims sig) (keyFunc env) = .error err := by
    cases hp : Parse claimsValid now (.jws alg claims sig) (keyFunc env) with
    | error err => exact ⟨err, rfl⟩
    | ok token =>
      obtain ⟨alg2, claims2, sig2, hts, ⟨m, hm, hh, -⟩, -⟩ :=
        Parse_ok claimsValid env now _ token hp
      cases hts
      rcases GetSigningMethod_isHMAC alg m hm hh with h | h | h
      · exact absurd h h256
      · exact absurd h h384
      · exact absurd h h512
  obtain ⟨err, hparse⟩ := hparse
  have h : RequireAdmin claimsValid env db now cookies Outcome.init =
      Outcome.init.AbortWithStatusJSON StatusUnauthorized
        (errorBody "unauthorized - invalid token") := by
    simp [RequireAdmin, hcookie, hparse]
  rw [h]
  exact ⟨rfl, rfl, rfl⟩

theorem RequireAdmin_rejects_other_methods_witness :
    (RequireAdmin timeClaimsValid sampleEnv sampleDB sampleNow
        (authCookie (signedToken .RS256 "RS256" "0f4a-secret" (sampleClaims 1 1700086400)))
        Outcome.init).status = some 401 :=
  (RequireAdmin_rejects_other_methods timeClaimsValid sampleEnv sampleDB sampleNow
    (authCookie (signedToken .RS256 "RS256" "0f4a-secret" (sampleClaims 1 1700086400)))
    "RS256" (sampleClaims 1 1700086400)
    (Signature.signed .RS256 "0f4a-secret" "RS256" (sampleClaims 1 1700086400))
    rfl (by decide) (by decide) (by decide)).2.1

/-- C9, as stated, fails: the gate does not check the type of `sub`.  A token whose `sub`
is the string "1" and not a number is not aborted: the store resolves it to the row with
ID 1, the administrator is bound and the next handler runs. -/
theorem RequireAdmin_admits_string_subject :
    (RequireAdmin timeClaimsValid sampleEnv sampleDB sampleNow
        (authCookie (signedToken .HS256 "HS256" (sampleEnv "JWT_SECRET")
          [("sub", Value.str "1"), ("exp", Value.num 1700086400)])) Outcome.init).aborted =
        false ∧
      (RequireAdmin timeClaimsValid sampleEnv sampleDB sampleNow
        (authCookie (signedToken .HS256 "HS256" (sampleEnv "JWT_SECRET")
          [("sub", Value.str "1"), ("exp", Value.num 1700086400)])) Outcome.init).nextRan =
        true ∧
      (RequireAdmin timeClaimsValid sampleEnv sampleDB sampleNow
        (authCookie (signedToken .HS256 "HS256" (sampleEnv "JWT_SECRET")
          [("sub", Value.str "1"), ("exp", Value.num 1700086400)])) Outcome.init).Get "user" =
        some sampleAdmin := by
  decide

/-- C9, amended: `RequireAdmin` fails closed.  The next handler runs if and only if the
cookie `Authorization` is present, its token parses and verifies under the configured key,
`exp` is present, numeric and not in the past, `sub` is present and not the empty string,
the lookup by `sub` finds a user, and the role of that user is "admin"; in every other case
the request is aborted with 401 or 403 and no user is bound to the context.  In particular
a missing or mistyped `exp` and a missing or empty `sub` are aborted with 401; the type of
`sub` is not checked, the claim goes to the lookup as it is. -/
theorem RequireAdmin_fail_closed (claimsValid : MapClaims → Nat → Bool) (env : String → String)
    (db : List User) (now : Nat) (cookies : String → Option TokenString) :
    ((RequireAdmin claimsValid env db now cookies Outcome.init).nextRan = true ↔
        ∃ alg claims sig e v u, cookies "Authorization" = some (.jws alg claims sig) ∧
          SignedWith (env "JWT_SECRET") alg claims sig ∧ claimsValid claims now = true ∧
          claims.lookup "exp" = some (.num e) ∧ ¬ e * Second < (now : Int) ∧
          claims.lookup "sub" = some v ∧ v ≠ Value.str "" ∧ First db v = some u ∧
          u.Role = "admin") ∧
      ((RequireAdmin claimsValid env db now cookies Outcome.init).nextRan = false →
        (RequireAdmin claimsValid env db now cookies Outcome.init).aborted = true ∧
        (RequireAdmin claimsValid env db now cookies Outcome.init).keys = [] ∧
        ((RequireAdmin claimsValid env db now cookies Outcome.init).status = some 401 ∨
          (RequireAdmin claimsValid env db now cookies Outcome.init).status = some 403)) ∧
      (∀ alg claims sig, cookies "Authorization" = some (.jws alg claims sig) →
        ((∀ e, claims.lookup "exp" ≠ some (.num e)) ∨ claims.lookup "sub" = none ∨
          claims.lookup "sub" = some (Value.str "")) →
        (RequireAdmin claimsValid env db now cookies Outcome.init).status = some 401 ∧
        (RequireAdmin claimsValid env db now cookies Outcome.init).aborted = true ∧
        (RequireAdmin claimsValid env db now cookies Outcome.init).keys = [] ∧
        (RequireAdmin claimsValid env db now cookies Outcome.init).nextRan = false) := by
  have hcontra : ∀ (alg : String) (claims : MapClaims) (sig : Signature) (e : Int) (v : Value),
      cookies "Authorization" = some (.jws alg claims sig) →
      claims.lookup "exp" = some (.num e) → claims.lookup "sub" = some v → v ≠ Value.str "" →
      ∀ (alg2 : String) (claims2 : MapClaims) (sig2 : Signature),
        cookies "Authorization" = some (.jws alg2 claims2 sig2) →
        ((∀ e, claims2.lookup "exp" ≠ some (.num e)) ∨ claims2.lookup "sub" = none ∨
          claims2.lookup "sub" = some (Value.str "")) → False := by
    intro alg claims sig e v hc hexp hsub hv alg2 claims2 sig2 hc2 hbad
    rw [hc] at hc2
    cases hc2
    rcases hbad with hb | hb | hb
    · exact hb e hexp
    · rw [hsub] at hb; cases hb
    · rw [hsub] at hb; cases hb; exact hv rfl
  rcases RequireAdmin_cases claimsValid env db now cookies with
    ⟨alg, claims, sig, e, v, u, h1, h2, h3, h4, h5, h6, h7, h8, h9, hR⟩ | ⟨msg, -, hR⟩ |
    ⟨alg, claims, sig, e, v, u, h1, -, -, h4, -, h6, h7, -, -, hR⟩
  · rw [hR]
    refine ⟨⟨fun _ => ⟨alg, claims, sig, e, v, u, h1, h2, h3, h4, h5, h6, h7, h8, h9⟩,
      fun _ => rfl⟩, ?_, ?_⟩
    · intro h
      cases h
    · intro alg2 claims2 sig2 hc2 hbad
      exact absurd (hcontra alg claims sig e v h1 h4 h6 h7 alg2 claims2 sig2 hc2 hbad) id
  · rw [hR]
    refine ⟨⟨fun h => ?_, ?_⟩, fun _ => ⟨rfl, rfl, Or.inl rfl⟩,
      fun _ _ _ _ _ => ⟨rfl, rfl, rfl, rfl⟩⟩
    · cases h
    · rintro ⟨alg, claims, sig, e, v, u, h1, h2, h3, h4, h5, h6, -, h8, h9⟩
      have := RequireAdmin_success claimsValid env db now cookies alg claims sig e v u h1 h2 h3
        h4 h5 h6 h8 h9
      rw [hR] at this
      have hn := congrArg Outcome.nextRan this
      cases hn
  · rw [hR]
    refine ⟨⟨fun h => ?_, ?_⟩, fun _ => ⟨rfl, rfl, Or.inr rfl⟩, ?_⟩
    · cases h
    · rintro ⟨alg3, claims3, sig3, e3, v3, u3, h1, h2, h3, h4, h5, h6, -, h8, h9⟩
      have := RequireAdmin_success claimsValid env db now cookies alg3 claims3 sig3 e3 v3 u3 h1
        h2 h3 h4 h5 h6 h8 h9
      rw [hR] at this
      have hn := congrArg Outcome.nextRan this
      cases hn
    · intro alg2 claims2 sig2 hc2 hbad
      exact absurd (hcontra alg claims sig e v h1 h4 h6 h7 alg2 claims2 sig2 hc2 hbad) id

/-- C10, as stated, fails: a request without the cookie and a request with a malformed
token are both rejected with 401, with different bodies. -/
theorem RequireAdmin_bodies_differ :
    (RequireAdmin timeClaimsValid sampleEnv sampleDB sampleNow noCookies Outcome.init).status =
        some 401 ∧
      (RequireAdmin timeClaimsValid sampleEnv sampleDB sampleNow
        (authCookie (TokenString.malformed "abc")) Outcome.init).status = some 401 ∧
      (RequireAdmin timeClaimsValid sampleEnv sampleDB sampleNow noCookies Outcome.init).body ≠
        (RequireAdmin timeClaimsValid sampleEnv sampleDB sampleNow
          (authCookie (TokenString.malformed "abc")) Outcome.init).body := by
  decide

/-- C10, amended: any two requests that `RequireAdmin` rejects with 401 get the same
status, are both aborted with nothing bound and the next handler not run, and both bodies
are the one field "error"; its message names the first check that the request failed (no
cookie, an error of `jwt.Parse`, the expiry, the subject, the store lookup) and so differs
between the sub-cases; the message "invalid claims" of the source is never sent. -/
theorem RequireAdmin_unauthorized_shape (claimsValid : MapClaims → Nat → Bool)
    (env : String → String) (db1 db2 : List User) (now1 now2 : Nat)
    (cookies1 cookies2 : String → Option TokenString)
    (h1 : (RequireAdmin claimsValid env db1 now1 cookies1 Outcome.init).status = some 401)
    (h2 : (RequireAdmin claimsValid env db2 now2 cookies2 Outcome.init).status = some 401) :
    (RequireAdmin claimsValid env db1 now1 cookies1 Outcome.init).status =
        (RequireAdmin claimsValid env db2 now2 cookies2 Outcome.init).status ∧
      (RequireAdmin claimsValid env db1 now1 cookies1 Outcome.init).aborted = true ∧
      (RequireAdmin claimsValid env db2 now2 cookies2 Outcome.init).aborted = true ∧
      (RequireAdmin claimsValid env db1 now1 cookies1 Outcome.init).keys = [] ∧
      (RequireAdmin claimsValid env db2 now2 cookies2 Outcome.init).keys = [] ∧
      (RequireAdmin claimsValid env db1 now1 cookies1 Outcome.init).nextRan = false ∧
      (RequireAdmin claimsValid env db2 now2 cookies2 Outcome.init).nextRan = false ∧
      ∃ m1 m2, m1 ∈ unauthorizedMessages ∧ m2 ∈ unauthorizedMessages ∧
        m1 ≠ "unauthorized - invalid claims" ∧ m2 ≠ "unauthorized - invalid claims" ∧
        FailedCheck claimsValid env db1 now1 cookies1 m1 ∧
        FailedCheck claimsValid env db2 now2 cookies2 m2 ∧
        (RequireAdmin claimsValid env db1 now1 cookies1 Outcome.init).body = errorBody m1 ∧
        (RequireAdmin claimsValid env db2 now2 cookies2 Outcome.init).body = errorBody m2 := by
  have key : ∀ (db : List User) (now : Nat) (cookies : String → Option TokenString),
      (RequireAdmin claimsValid env db now cookies Outcome.init).status = some 401 →
      ∃ msg, FailedCheck claimsValid env db now cookies msg ∧
        RequireAdmin claimsValid env db now cookies Outcome.init =
          Outcome.init.AbortWithStatusJSON StatusUnauthorized (errorBody msg) := by
    intro db now cookies h
    rcases RequireAdmin_cases claimsValid env db now cookies with
      ⟨alg, claims, sig, e, v, u, -, -, -, -, -, -, -, -, -, hR⟩ | hR |
      ⟨alg, claims, sig, e, v, u, -, -, -, -, -, -, -, -, -, hR⟩
    · rw [hR] at h; cases h
    · exact hR
    · rw [hR] at h; cases h
  obtain ⟨m1, hm1, e1⟩ := key db1 now1 cookies1 h1
  obtain ⟨m2, hm2, e2⟩ := key db2 now2 cookies2 h2
  obtain ⟨a1, b1⟩ := FailedCheck_message claimsValid env db1 now1 cookies1 m1 hm1
  obtain ⟨a2, b2⟩ := FailedCheck_message claimsValid env db2 now2 cookies2 m2 hm2
  rw [e1, e2]
  exact ⟨rfl, rfl, rfl, rfl, rfl, rfl, rfl, m1, m2, a1, a2, b1, b2, hm1, hm2, rfl, rfl⟩

theorem RequireAdmin_unauthorized_shape_witness :
    (RequireAdmin timeClaimsValid sampleEnv sampleDB sampleNow noCookies Outcome.init).aborted =
        true ∧
      (RequireAdmin timeClaimsValid sampleEnv [] 5
        (authCookie (TokenString.malformed "x.y")) Outcome.init).aborted = true :=
  ⟨(RequireAdmin_unauthorized_shape timeClaimsValid sampleEnv sampleDB [] sampleNow 5 noCookies
    (authCookie (TokenString.malformed "x.y")) (by decide) (by decide)).2.1,
   (RequireAdmin_unauthorized_shape timeClaimsValid sampleEnv sampleDB [] sampleNow 5 noCookies
    (authCookie (TokenString.malformed "x.y")) (by decide) (by decide)).2.2.1⟩

/-- C11: for every valid, unexpired token whose subject matches no user in the store,
`RequireAdmin` aborts with 401, the status it gives for an invalid token, and not with a
not-found status (404) or with 403; nothing is bound and the next handler is not run. -/
theorem RequireAdmin_unknown_user (claimsValid : MapClaims → Nat → Bool) (env : String → String)
    (db : List User) (now : Nat) (cookies : String → Option TokenString)
    (alg : String) (claims : MapClaims) (sig : Signature) (e : Int) (v : Value) (raw : String)
    (hcookie : cookies "Authorization" = some (.jws alg claims sig))
    (hs : SignedWith (env "JWT_SECRET") alg claims sig)
    (hcv : claimsValid claims now = true)
    (hexp : claims.lookup "exp" = some (.num e)) (hfresh : ¬ e * Second < (now : Int))
    (hsub : claims.lookup "sub" = some v) (hmiss : First db v = none) :
    (RequireAdmin claimsValid env db now cookies Outcome.init).status = some 401 ∧
      (RequireAdmin claimsValid env db now cookies Outcome.init).status ≠ some 404 ∧
      (RequireAdmin claimsValid env db now cookies Outcome.init).status ≠ some 403 ∧
      (RequireAdmin claimsValid env db now cookies Outcome.init).status =
        (RequireAdmin claimsValid env db now (authCookie (.malformed raw)) Outcome.init).status ∧
      (RequireAdmin claimsValid env db now cookies Outcome.init).aborted = true ∧
      (RequireAdmin claimsValid env db now cookies Outcome.init).nextRan = false ∧
      (RequireAdmin claimsValid env db now cookies Outcome.init).keys = [] ∧
      (v ≠ Value.str "" →
        RequireAdmin claimsValid env db now cookies Outcome.init =
          Outcome.init.AbortWithStatusJSON StatusUnauthorized
            (errorBody "unauthorized - user not found")) := by
  obtain ⟨token, hparse, hclaims, hvalid⟩ := Parse_signed claimsValid env now alg claims sig hs hcv
  have hbad : (RequireAdmin claimsValid env db now (authCookie (.malformed raw))
      Outcome.init).status = some 401 := by
    simp [RequireAdmin, authCookie, Parse, Outcome.AbortWithStatusJSON, StatusUnauthorized]
  rw [hbad]
  by_cases hv : v = Value.str ""
  · have h : RequireAdmin claimsValid env db now cookies Outcome.init =
        Outcome.init.AbortWithStatusJSON StatusUnauthorized
          (errorBody "unauthorized - invalid user ID") := by
      simp [RequireAdmin, hcookie, hparse, hclaims, hvalid, hexp, hfresh, hsub, hv]
    rw [h]
    exact ⟨rfl, by decide, by decide, rfl, rfl, rfl, rfl, fun hne => absurd hv hne⟩
  · have h : RequireAdmin claimsValid env db now cookies Outcome.init =
        Outcome.init.AbortWithStatusJSON StatusUnauthorized
          (errorBody "unauthorized - user not found") := by
      simp [RequireAdmin, hcookie, hparse, hclaims, hvalid, hexp, hfresh, hsub, hv, hmiss]
    rw [h]
    exact ⟨rfl, by decide, by decide, rfl, rfl, rfl, rfl, fun _ => rfl⟩

theorem RequireAdmin_unknown_user_witness :
    (RequireAdmin timeClaimsValid sampleEnv sampleDB sampleNow
        (authCookie (signedToken .HS256 "HS256" "0f4a-secret" (sampleClaims 7 1700086400)))
        Outcome.init).status = some 401 :=
  (RequireAdmin_unknown_user timeClaimsValid sampleEnv sampleDB sampleNow
    (authCookie (signedToken .HS256 "HS256" "0f4a-secret" (sampleClaims 7 1700086400)))
    "HS256" (sampleClaims 7 1700086400)
    (Signature.signed .HS256 "0f4a-secret" "HS256" (sampleClaims 7 1700086400))
    1700086400 (Value.num 7) "not-a-token" rfl ⟨.HS256, by decide, rfl, rfl⟩ (by decide)
    (by decide) (by decide) (by decide) (by decide)).1

/-- Requests of other clients leave the entry of `B` as it was. -/
theorem run_other (rps burst duration : Int) (B : String) :
    ∀ (events : List Event) (clients : Clients),
      (∀ e ∈ events, ∃ A now, e = Event.request A now ∧ A ≠ B) →
      (run rps burst duration clients events).1 B = clients B := by
  intro events
  induction events with
  | nil => intro clients _; rfl
  | cons e es ih =>
    intro clients h
    obtain ⟨A, now, he, hAB⟩ := h e (List.mem_cons_self _ _)
    subst he
    simp only [run, step]
    rw [ih _ (fun e2 h2 => h e2 (List.mem_cons_of_mem _ h2))]
    exact RateLimitMiddleware_other rps burst duration clients now A B Outcome.init
      (Ne.symm hAB)

/-- What the handler does for a client depends on the entry of that client only. -/
theorem RateLimitMiddleware_congr (rps burst duration : Int) (clients1 clients2 : Clients)
    (now : Nat) (ip : String) (h : clients1 ip = clients2 ip) :
    (RateLimitMiddleware rps burst duration clients1 now ip Outcome.init).2 =
        (RateLimitMiddleware rps burst duration clients2 now ip Outcome.init).2 ∧
      (RateLimitMiddleware rps burst duration clients1 now ip Outcome.init).1 ip =
        (RateLimitMiddleware rps burst duration clients2 now ip Outcome.init).1 ip := by
  have he : entry rps burst clients1 ip = entry rps burst clients2 ip := by
    unfold entry; rw [h]
  constructor
  · rw [RateLimitMiddleware_outcome, RateLimitMiddleware_outcome]
    unfold refilled
    rw [he]
  · rw [RateLimitMiddleware_self, RateLimitMiddleware_self, he]

/-- C15: buckets of different clients are independent.  Requests of clients other than `B`
(admitted or denied, creating a bucket or not) leave the entry of `B` in the map as it was,
present or absent, and the next request of `B` has the outcome, and leaves the bucket, it
would have had without them. -/
theorem buckets_independent (rps burst duration : Int) (clients : Clients)
    (events : List Event) (B : String) (t : Nat)
    (hother : ∀ e ∈ events, ∃ A now, e = Event.request A now ∧ A ≠ B) :
    (run rps burst duration clients events).1 B = clients B ∧
      (RateLimitMiddleware rps burst duration (run rps burst duration clients events).1 t B
          Outcome.init).2 =
        (RateLimitMiddleware rps burst duration clients t B Outcome.init).2 ∧
      (RateLimitMiddleware rps burst duration (run rps burst duration clients events).1 t B
          Outcome.init).1 B =
        (RateLimitMiddleware rps burst duration clients t B Outcome.init).1 B := by
  have h := run_other rps burst duration B events clients hother
  exact ⟨h, RateLimitMiddleware_congr rps burst duration _ clients t B h⟩

theorem buckets_independent_witness :
    (run 1 1 Minute Clients.empty [Event.request "A" 3, Event.request "A" 3]).1 "B" =
      Clients.empty "B" :=
  (buckets_independent 1 1 Minute Clients.empty [Event.request "A" 3, Event.request "A" 3]
    "B" 4 (by
      intro e he
      simp only [List.mem_cons, List.mem_singleton, List.not_mem_nil, or_false] at he
      rcases he with rfl | rfl <;> exact ⟨"A", 3, rfl, by decide⟩)).1

/-! ## Theorems: pagination -/

theorem Atoi_range (s : String) (v : Int) (h : Atoi s = some v) : minInt ≤ v ∧ v ≤ maxInt := by
  have hr : ∀ x : Int, inRange x = some v → minInt ≤ v ∧ v ≤ maxInt := by
    intro x hx
    unfold inRange at hx
    split at hx
    · cases hx; assumption
    · cases hx
  unfold Atoi at h
  simp only [] at h
  split at h
  · cases h
  · split at h
    · cases h
    · exact hr _ h

theorem wrapInt_eq (x : Int) (h1 : minInt ≤ x) (h2 : x ≤ maxInt) : wrapInt x = x := by
  unfold wrapInt
  unfold minInt at h1
  unfold maxInt at h2
  omega

/-- The page and the limit of every request are within their bounds, and the offset is the
exact product whenever that product fits `int`. -/
theorem parsePagination_bounds (pageQuery limitQuery : Option String) :
    1 ≤ (parsePagination pageQuery limitQuery).page ∧
      (parsePagination pageQuery limitQuery).page ≤ maxInt ∧
      1 ≤ (parsePagination pageQuery limitQuery).limit ∧
      (parsePagination pageQuery limitQuery).limit ≤ 50 ∧
      (((parsePagination pageQuery limitQuery).page - 1) *
          (parsePagination pageQuery limitQuery).limit ≤ maxInt →
        (parsePagination pageQuery limitQuery).offset =
            ((parsePagination pageQuery limitQuery).page - 1) *
              (parsePagination pageQuery limitQuery).limit ∧
          0 ≤ (parsePagination pageQuery limitQuery).offset) := by
  have hp : ∃ page : Int, (parsePagination pageQuery limitQuery).page = page ∧ 1 ≤ page ∧
      page ≤ maxInt := by
    refine ⟨_, rfl, ?_⟩
    simp only [parsePagination]
    cases h : Atoi (DefaultQuery pageQuery "1") with
    | none => exact ⟨le_refl _, by decide⟩
    | some v =>
      have hr := Atoi_range _ v h
      simp only []
      split
      · exact ⟨le_refl _, by decide⟩
      · exact ⟨by omega, hr.2⟩
  have hl : ∃ limit : Int, (parsePagination pageQuery limitQuery).limit = limit ∧ 1 ≤ limit ∧
      limit ≤ 50 := by
    refine ⟨_, rfl, ?_⟩
    simp only [parsePagination]
    cases h : Atoi (DefaultQuery limitQuery "10") with
    | none => exact ⟨by decide, by decide⟩
    | some v =>
      simp only []
      split
      · exact ⟨by decide, by decide⟩
      · constructor <;> omega
  obtain ⟨page, hpage, hp1, hp2⟩ := hp
  obtain ⟨limit, hlimit, hl1, hl2⟩ := hl
  have hoff : (parsePagination pageQuery limitQuery).offset =
      wrapInt (wrapInt ((parsePagination pageQuery limitQuery).page - 1) *
        (parsePagination pageQuery limitQuery).limit) := rfl
  rw [hoff, hpage, hlimit]
  refine ⟨hp1, hp2, hl1, hl2, ?_⟩
  intro hfit
  have hm : minInt = -9223372036854775808 := rfl
  have hM : maxInt = 9223372036854775807 := rfl
  have h0 : 0 ≤ (page - 1) * limit := mul_nonneg (by omega) (by omega)
  rw [wrapInt_eq (page - 1) (by omega) (by omega), wrapInt_eq _ (by omega) hfit]
  exact ⟨rfl, h0⟩

/-- C17 at the request `page=9223372036854775807&limit=2`: the page and the limit are
accepted as they are, the product `(page - 1) * limit` is 18446744073709551612, and the
offset computed in `int` is -4.  The bounds of page and limit and their defaults hold for
every request, and the offset is the product, and not negative, whenever the product fits
`int`. -/
theorem parsePagination_offset_overflow :
    parsePagination (some "9223372036854775807") (some "2") =
        { page := 9223372036854775807, limit := 2, offset := -4 } ∧
      ((9223372036854775807 : Int) - 1) * 2 = 18446744073709551612 ∧
      (∀ pageQuery limitQuery : Option String,
        1 ≤ (parsePagination pageQuery limitQuery).page ∧
        1 ≤ (parsePagination pageQuery limitQuery).limit ∧
        (parsePagination pageQuery limitQuery).limit ≤ 50 ∧
        (((parsePagination pageQuery limitQuery).page - 1) *
            (parsePagination pageQuery limitQuery).limit ≤ maxInt →
          (parsePagination pageQuery limitQuery).offset =
              ((parsePagination pageQuery limitQuery).page - 1) *
                (parsePagination pageQuery limitQuery).limit ∧
            0 ≤ (parsePagination pageQuery limitQuery).offset) ∧
        (Atoi (DefaultQuery pageQuery "1") = none →
          (parsePagination pageQuery limitQuery).page = 1) ∧
        (∀ v, Atoi (DefaultQuery pageQuery "1") = some v → v < 1 →
          (parsePagination pageQuery limitQuery).page = 1) ∧
        (Atoi (DefaultQuery limitQuery "10") = none →
          (parsePagination pageQuery limitQuery).limit = 10) ∧
        (∀ v, Atoi (DefaultQuery limitQuery "10") = some v → (v < 1 ∨ 50 < v) →
          (parsePagination pageQuery limitQuery).limit = 10)) := by
  refine ⟨by decide, by decide, ?_⟩
  intro pageQuery limitQuery
  obtain ⟨h1, -, h3, h4, h5⟩ := parsePagination_bounds pageQuery limitQuery
  refine ⟨h1, h3, h4, h5, ?_, ?_, ?_, ?_⟩
  · intro h
    simp [parsePagination, h]
  · intro v h hv
    simp [parsePagination, h, hv]
  · intro h
    simp [parsePagination, h]
  · intro v h hv
    simp only [parsePagination, h]
    rw [if_pos (by omega)]

/-! ## Theorems: the mutex -/

/-- C14 at the first request of client 10.0.0.1 under the deployed configuration (100 per
second, burst 200): the request is admitted and the calls are `Lock`, `Next`, `Unlock`, so
the mutex is held while the next handlers run; it is so for every admitted request, whereas
a pass of the cleanup loop releases the mutex itself. -/
theorem handlerOps_lock_held :
    handlerOps 100 200 Minute Clients.empty 5 "10.0.0.1" = [Op.Lock, Op.Next, Op.Unlock] ∧
      heldDuringNext false (handlerOps 100 200 Minute Clients.empty 5 "10.0.0.1") = true ∧
      heldDuringNext false cleanupOps = false ∧
      (∀ (rps burst duration : Int) (clients : Clients) (now : Nat) (ip : String),
        (RateLimitMiddleware rps burst duration clients now ip Outcome.init).2.nextRan = true →
          heldDuringNext false (handlerOps rps burst duration clients now ip) = true) := by
  refine ⟨by decide, by decide, by decide, ?_⟩
  intro rps burst duration clients now ip h
  simp [handlerOps, h, heldDuringNext]

/-! ## Theorems: startup, Login and SignUp -/

/-- The outcome of `init` does not depend on `JWT_SECRET`. -/
theorem init_withSecret (h : Host) (value : String) : init (h.withSecret value) = init h := by
  have hne : ¬ ("DB_DSN" = "JWT_SECRET") := by decide
  simp [init, Host.withSecret, hne]

/-- C12 at a host where the file `.env`, the logger and the database are in place and
`JWT_SECRET` is not set: `init` does not fail, so the server starts; `Login` then signs its
token with the empty key, and `RequireAdmin` verifies with the empty key and lets through a
token that anyone can compute with it.  The outcome of `init` never depends on
`JWT_SECRET`. -/
theorem init_without_secret :
    sampleHost.Getenv "JWT_SECRET" = "" ∧ init sampleHost = .ok () ∧
      (Login sampleHost.Getenv sampleCompare sampleUsers sampleNow
        (some [("email", Value.str "root@example.org"), ("password", Value.str "hunter2")])).token =
        some (signedToken .HS256 "HS256" "" (sampleClaims 1 1700086400)) ∧
      (RequireAdmin timeClaimsValid sampleHost.Getenv sampleDB sampleNow
        (authCookie (signedToken .HS256 "HS256" "" (sampleClaims 1 1700086400)))
        Outcome.init).nextRan = true ∧
      (∀ (h : Host) (value : String), init (h.withSecret value) = init h) := by
  refine ⟨by decide, rfl, by decide, by decide, init_withSecret⟩

/-- The expiry that `Login` sets is 86400 seconds after the second of the clock read. -/
theorem Login_exp (now : Nat) :
    ((now : Int) + Hour * 24) / Second = (now : Int) / Second + 86400 ∧
      (now : Int) < (((now : Int) + Hour * 24) / Second) * Second := by
  have h : (now : Int) + Hour * 24 = (now : Int) + 86400 * Second := by
    unfold Hour Minute; ring
  have h1 : ((now : Int) + Hour * 24) / Second = (now : Int) / Second + 86400 := by
    rw [h, Int.add_mul_ediv_right _ _ (ne_of_gt Second_pos)]
  refine ⟨h1, ?_⟩
  rw [h1]
  unfold Second
  omega

/-- C13, as stated, fails: the token of a successful login carries the two claims `sub` and
`exp` and no claim of the time of issue. -/
theorem Login_token_without_issuedAt :
    (Login sampleEnv sampleCompare sampleUsers sampleNow
        (some [("email", Value.str "root@example.org"), ("password", Value.str "hunter2")])).status =
        200 ∧
      (Login sampleEnv sampleCompare sampleUsers sampleNow
        (some [("email", Value.str "root@example.org"), ("password", Value.str "hunter2")])).token =
        some (TokenString.jws "HS256"
          [("sub", Value.num 1), ("exp", Value.num 1700086400)]
          (Signature.signed .HS256 "0f4a-secret" "HS256"
            [("sub", Value.num 1), ("exp", Value.num 1700086400)])) ∧
      List.lookup "iat" [("sub", Value.num 1), ("exp", Value.num 1700086400)] = none ∧
      List.length [("sub", Value.num 1), ("exp", Value.num 1700086400)] = 2 := by
  decide

/-- C13, amended: every token that `Login` issues is issued on a successful login, for the
stored user whose email was given and whose password was verified, and it carries exactly
the two claims `sub`, the ID of that user, and `exp`, 24 hours after the clock read and so
later than the instant of issue; it is signed with HS256 under `JWT_SECRET` and set as the
cookie `Authorization`. -/
theorem Login_token_claims (Getenv : String → String)
    (CompareHashAndPassword : String → String → Bool) (users : List models.User) (now : Nat)
    (body : Option (List (String × Value))) (ts : TokenString)
    (h : (Login Getenv CompareHashAndPassword users now body).token = some ts) :
    ∃ b u, bindLogin body = some b ∧ firstByEmail users b.Email = some u ∧
      CompareHashAndPassword u.Password b.Password = true ∧
      ts = signedToken .HS256 "HS256" (Getenv "JWT_SECRET")
        [("sub", Value.num (u.ID : Int)), ("exp", Value.num ((now : Int) / Second + 86400))] ∧
      (now : Int) < ((now : Int) / Second + 86400) * Second ∧
      (Login Getenv CompareHashAndPassword users now body).status = 200 ∧
      (Login Getenv CompareHashAndPassword users now body).user = some u ∧
      (Login Getenv CompareHashAndPassword users now body).cookie =
        some ("Authorization", ts, 86400) := by
  obtain ⟨he1, he2⟩ := Login_exp now
  rw [he1] at he2
  cases hb : bindLogin body with
  | none => simp [Login, hb, Reply.text] at h
  | some b =>
    cases hu : firstByEmail users b.Email with
    | none => simp [Login, hb, hu, Reply.text] at h
    | some u =>
      cases hc : CompareHashAndPassword u.Password b.Password with
      | false => simp [Login, hb, hu, hc, Reply.text] at h
      | true =>
        have hL : Login Getenv CompareHashAndPassword users now body =
            { status := 200, field := "message", message := "User logged in successfully",
              user := some u,
              token := some (signedToken .HS256 "HS256" (Getenv "JWT_SECRET")
                [("sub", Value.num (u.ID : Int)),
                 ("exp", Value.num ((now : Int) / Second + 86400))]),
              cookie := some ("Authorization",
                signedToken .HS256 "HS256" (Getenv "JWT_SECRET")
                  [("sub", Value.num (u.ID : Int)),
                   ("exp", Value.num ((now : Int) / Second + 86400))], 3600 * 24) } := by
          simp [Login, hb, hu, hc, SignedString, SigningMethod.isHMAC, SigningMethod.Alg, he1]
        rw [hL] at h ⊢
        simp only [Option.some.injEq] at h
        subst h
        exact ⟨b, u, rfl, hu, hc, rfl, he2, rfl, rfl, rfl⟩

theorem Login_token_claims_witness :
    ∃ b u, bindLogin (some [("email", Value.str "reader@example.org"),
          ("password", Value.str "letmein")]) = some b ∧
      firstByEmail sampleUsers b.Email = some u ∧
      sampleCompare u.Password b.Password = true ∧
      signedToken .HS256 "HS256" "0f4a-secret" (sampleClaims 2 1700086400) =
        signedToken .HS256 "HS256" (sampleEnv "JWT_SECRET")
          [("sub", Value.num (u.ID : Int)),
           ("exp", Value.num ((sampleNow : Int) / Second + 86400))] ∧
      (sampleNow : Int) < ((sampleNow : Int) / Second + 86400) * Second ∧
      (Login sampleEnv sampleCompare sampleUsers sampleNow
        (some [("email", Value.str "reader@example.org"),
          ("password", Value.str "letmein")])).status = 200 ∧
      (Login sampleEnv sampleCompare sampleUsers sampleNow
        (some [("email", Value.str "reader@example.org"),
          ("password", Value.str "letmein")])).user = some u ∧
      (Login sampleEnv sampleCompare sampleUsers sampleNow
        (some [("email", Value.str "reader@example.org"),
          ("password", Value.str "letmein")])).cookie =
        some ("Authorization",
          signedToken .HS256 "HS256" "0f4a-secret" (sampleClaims 2 1700086400), 86400) :=
  Login_token_claims sampleEnv sampleCompare sampleUsers sampleNow
    (some [("email", Value.str "reader@example.org"), ("password", Value.str "letmein")])
    (signedToken .HS256 "HS256" "0f4a-secret" (sampleClaims 2 1700086400)) (by decide)

/-- A row with the email of the new user makes the insert fail. -/
theorem Create_duplicate (users : List models.User) (now : Nat) (user : models.User)
    (h : ∃ u ∈ users, u.Email = user.Email) :
    ∃ msg, Create users now user = .error msg := by
  obtain ⟨u, hu, he⟩ := h
  have : users.any (fun u => u.Email == user.Email) = true := by
    rw [List.any_eq_true]
    exact ⟨u, hu, by simpa using he⟩
  exact ⟨"duplicate key value violates unique constraint", by
    simp only [Create, this, if_true]⟩

/-- C16: `SignUp` never creates a privileged account.  For every request body, whatever
fields it carries, `SignUp` either leaves the table as it was or appends one row, whose
Role is "user", whose Email is the email of the request and whose Password is the hash of
the password of the request and not that password (bcrypt never returns its input); when a
row with that email exists nothing is stored, and when the lookup finds it the answer is
400. -/
theorem SignUp_creates_plain_user (GenerateFromPassword : String → Nat → Except String String)
    (users : List models.User) (now : Nat) (body : Option (List (String × Value)))
    (hone : ∀ p h, GenerateFromPassword p 10 = .ok h → h ≠ p) :
    ((SignUp GenerateFromPassword users now body).1 = users ∨
        ∃ b h, bindSignUp body = some b ∧ GenerateFromPassword b.Password 10 = .ok h ∧
          h ≠ b.Password ∧
          (SignUp GenerateFromPassword users now body).1 =
            users ++ [{ ID := nextID users, CreatedAt := now, UpdatedAt := now,
                        DeletedAt := none, Email := b.Email, Password := h,
                        Role := "user" }] ∧
          (SignUp GenerateFromPassword users now body).2.status = 200) ∧
      (∀ b, bindSignUp body = some b → (∃ u ∈ users, u.Email = b.Email) →
        (SignUp GenerateFromPassword users now body).1 = users) ∧
      (∀ b u, bindSignUp body = some b → firstByEmail users b.Email = some u →
        (SignUp GenerateFromPassword users now body).1 = users ∧
        (SignUp GenerateFromPassword users now body).2 =
          Reply.text 400 "Message" "User already exists") := by
  cases hb : bindSignUp body with
  | none =>
    refine ⟨Or.inl ?_, ?_, ?_⟩
    · simp [SignUp, hb]
    · intro b h0; cases h0
    · intro b u h0; cases h0
  | some b =>
    cases hf : firstByEmail users b.Email with
    | some u0 =>
      have hS : SignUp GenerateFromPassword users now body =
          (users, Reply.text 400 "Message" "User already exists") := by
        simp [SignUp, hb, hf]
      rw [hS]
      refine ⟨Or.inl rfl, fun _ _ _ => rfl, fun _ _ _ _ => ⟨rfl, rfl⟩⟩
    | none =>
      cases hg : GenerateFromPassword b.Password 10 with
      | error err =>
        have hS : SignUp GenerateFromPassword users now body =
            (users, Reply.text 500 "error" "Failed to hash the password") := by
          simp [SignUp, hb, hf, hg]
        rw [hS]
        refine ⟨Or.inl rfl, fun _ _ _ => rfl, ?_⟩
        intro b2 u h0 h1
        cases h0
        rw [hf] at h1
        cases h1
      | ok h =>
        by_cases hdup : ∃ u ∈ users, u.Email = b.Email
        · obtain ⟨msg, hC⟩ := Create_duplicate users now
            { ID := 0, CreatedAt := 0, UpdatedAt := 0, DeletedAt := none, Email := b.Email,
              Password := h, Role := "user" } hdup
          have hS : SignUp GenerateFromPassword users now body =
              (users, Reply.text 500 "error" "Failed to create the user") := by
            simp [SignUp, hb, hf, hg, hC]
          rw [hS]
          refine ⟨Or.inl rfl, fun _ _ _ => rfl, ?_⟩
          intro b2 u h0 h1
          cases h0
          rw [hf] at h1
          cases h1
        · have hany : users.any (fun u => u.Email == b.Email) = false := by
            rw [Bool.eq_false_iff]
            intro hc
            rw [List.any_eq_true] at hc
            obtain ⟨u, hu, he⟩ := hc
            exact hdup ⟨u, hu, by simpa using he⟩
          have hS : (SignUp GenerateFromPassword users now body).1 =
                users ++ [{ ID := nextID users, CreatedAt := now, UpdatedAt := now,
                            DeletedAt := none, Email := b.Email, Password := h,
                            Role := "user" }] ∧
              (SignUp GenerateFromPassword users now body).2.status = 200 := by
            simp [SignUp, hb, hf, hg, Create, hany, Reply.text]
          refine ⟨Or.inr ⟨b, h, rfl, hg, hone _ _ hg, hS.1, hS.2⟩, ?_, ?_⟩
          · intro b2 h0 h1
            cases h0
            exact absurd h1 hdup
          · intro b2 u h0 h1
            cases h0
            rw [hf] at h1
            cases h1

/-- The stand-in hash never returns its input. -/
theorem sampleHash_ne (p h : String) (hh : sampleHash p 10 = .ok h) : h ≠ p := by
  simp only [sampleHash, Except.ok.injEq] at hh
  intro hc
  have hl := congrArg String.length hh
  rw [String.length_append, hc] at hl
  have : ("$2a$10$" : String).length = 7 := by decide
  omega

theorem SignUp_creates_plain_user_witness :
    (SignUp sampleHash sampleUsers 9
        (some [("email", Value.str "new@example.org"), ("password", Value.str "pw"),
          ("role", Value.str "admin")])).1 = sampleUsers ∨
      ∃ b h, bindSignUp (some [("email", Value.str "new@example.org"),
            ("password", Value.str "pw"), ("role", Value.str "admin")]) = some b ∧
        sampleHash b.Password 10 = .ok h ∧ h ≠ b.Password ∧
        (SignUp sampleHash sampleUsers 9
          (some [("email", Value.str "new@example.org"), ("password", Value.str "pw"),
            ("role", Value.str "admin")])).1 =
          sampleUsers ++ [{ ID := nextID sampleUsers, CreatedAt := 9, UpdatedAt := 9,
                            DeletedAt := none, Email := b.Email, Password := h,
                            Role := "user" }] ∧
        (SignUp sampleHash sampleUsers 9
          (some [("email", Value.str "new@example.org"), ("password", Value.str "pw"),
            ("role", Value.str "admin")])).2.status = 200 :=
  (SignUp_creates_plain_user sampleHash sampleUsers 9
    (some [("email", Value.str "new@example.org"), ("password", Value.str "pw"),
      ("role", Value.str "admin")]) sampleHash_ne).1

end AuthSystem
